import Mathlib

set_option maxRecDepth 8000

/-!
Verification development for the agent-execution backend.

The Python sources are shallowly embedded over `List Char` ("Str"):
pure text manipulation (the tool-call text protocol of
`app/infrastructure/external/llm/openai_llm.py`), the retry loop of
`OpenAILLM.ask`, the sandbox of
`app/infrastructure/external/sandbox/local_sandbox.py` (over an explicit
file-system model, with OS-level failures surfacing as `Except` errors
that the source's try/except blocks convert into `ToolResult`s), and the
step-execution engine of `app/domain/services/agents/execution.py`
(with the external JSON parser, schema validation and tool side effects
supplied as oracles, since those collaborators live outside the core).

Python exceptions are modelled with `Except Str`: a `.error` value is an
exception propagating to the caller, `.ok` a normal return.
-/

/-! ## Python-style string helpers (over lists of characters) -/

abbrev Str := List Char

def lit (s : String) : Str := s.data

/-- The backtick character (written via its code point). -/
def btick : Char := Char.ofNat 96

/-- Python `str.isspace` relevant subset / `re` `\s` class (ASCII). -/
def pyIsSpace (c : Char) : Bool :=
  c = ' ' || c = '\t' || c = '\n' || c = '\r' || c = '\x0b' || c = '\x0c'

def pyLStrip (s : Str) : Str := s.dropWhile pyIsSpace

def pyRStrip (s : Str) : Str := (s.reverse.dropWhile pyIsSpace).reverse

/-- Python `str.strip()` with no argument: drop surrounding whitespace. -/
def pyStrip (s : Str) : Str := pyRStrip (pyLStrip s)

/-- Python `str.strip(c)` for a single character argument. -/
def stripChar (c : Char) (s : Str) : Str :=
  ((s.dropWhile (· = c)).reverse.dropWhile (· = c)).reverse

/-- First index at or after the scan position where `needle` occurs. -/
def findSubAux (needle : Str) (hay : Str) (i : Nat) : Option Nat :=
  if needle.isPrefixOf hay then some i
  else
    match hay with
    | [] => none
    | _ :: t => findSubAux needle t (i + 1)

/-- Python `str.find(sub)` (as an `Option`): index of first occurrence. -/
def findSub (hay needle : Str) : Option Nat := findSubAux needle hay 0

/-- Python `sub in s`. -/
def containsSub (hay needle : Str) : Bool := (findSub hay needle).isSome

/-- Python `str.find(ch)` for a single character. -/
def findCharIdx (s : Str) (c : Char) : Option Nat := findSub s [c]

/-- Python `str.rfind(ch)` for a single character. -/
def rfindCharIdx (s : Str) (c : Char) : Option Nat :=
  match findSub s.reverse [c] with
  | none => none
  | some i => some (s.length - 1 - i)

/-- Python slice `s[a:b]` for non-negative bounds. -/
def strSlice (s : Str) (a b : Nat) : Str := (s.take b).drop a

/-- Python `str.replace(old, new, 1)`: replace the first occurrence only. -/
def replaceFirst (s old new : Str) : Str :=
  if old.isPrefixOf s then new ++ s.drop old.length
  else
    match s with
    | [] => []
    | c :: t => c :: replaceFirst t old new

/-- Python `str.splitlines()` (line-break set restricted to LF, CR, CRLF). -/
def pySplitlinesAux (acc : Str) : Str → List Str
  | [] => if acc = [] then [] else [acc.reverse]
  | '\r' :: '\n' :: t => acc.reverse :: pySplitlinesAux [] t
  | '\n' :: t => acc.reverse :: pySplitlinesAux [] t
  | '\r' :: t => acc.reverse :: pySplitlinesAux [] t
  | c :: t => pySplitlinesAux (c :: acc) t

def pySplitlines (s : Str) : List Str := pySplitlinesAux [] s

/-- Python `file.readlines()` on text already in memory: split after each
LF, keeping the line breaks. -/
def pySplitKeepEnds (acc : Str) : Str → List Str
  | [] => if acc = [] then [] else [acc.reverse]
  | '\n' :: t => (acc.reverse ++ ['\n']) :: pySplitKeepEnds [] t
  | c :: t => pySplitKeepEnds (c :: acc) t

def natStr (n : Nat) : Str := (toString n).data

def intStr (i : Int) : Str := (toString i).data

/-! ## JSON values and `json.loads`

`json.loads` is the standard-library strict JSON parser.  Values are
modelled by `JValue`; numeric literals are kept as their lexeme (their
numeric value is never consulted by the code under verification).
The parser carries fuel; every recursive call is preceded by the
consumption of at least one input character, so fuel `length + 1` is
always sufficient. -/

inductive JValue where
  | jnull
  | jbool (b : Bool)
  | jnum (lex : Str)
  | jstr (s : Str)
  | jarr (elems : List JValue)
  | jobj (members : List (Str × JValue))

/-- JSON inter-token whitespace (exactly the four characters of RFC 8259). -/
def jsonWs (c : Char) : Bool := c = ' ' || c = '\t' || c = '\n' || c = '\r'

def jskip (s : Str) : Str := s.dropWhile jsonWs

def hexVal (c : Char) : Option Nat :=
  if '0' ≤ c ∧ c ≤ '9' then some (c.toNat - 48)
  else if 'a' ≤ c ∧ c ≤ 'f' then some (c.toNat - 87)
  else if 'A' ≤ c ∧ c ≤ 'F' then some (c.toNat - 55)
  else none

/-- JSON string body parser: called just after the opening quote, returns
the decoded text and the remaining input after the closing quote. -/
def jparseStringAux : Nat → Str → Str → Option (Str × Str)
  | 0, _, _ => none
  | _ + 1, _, [] => none
  | fuel + 1, acc, c :: t =>
    if c = '"' then some (acc.reverse, t)
    else if c = '\\' then
      match t with
      | [] => none
      | e :: t2 =>
        if e = '"' then jparseStringAux fuel ('"' :: acc) t2
        else if e = '\\' then jparseStringAux fuel ('\\' :: acc) t2
        else if e = '/' then jparseStringAux fuel ('/' :: acc) t2
        else if e = 'b' then jparseStringAux fuel ('\x08' :: acc) t2
        else if e = 'f' then jparseStringAux fuel ('\x0c' :: acc) t2
        else if e = 'n' then jparseStringAux fuel ('\n' :: acc) t2
        else if e = 'r' then jparseStringAux fuel ('\r' :: acc) t2
        else if e = 't' then jparseStringAux fuel ('\t' :: acc) t2
        else if e = 'u' then
          match t2 with
          | h1 :: h2 :: h3 :: h4 :: t3 =>
            match hexVal h1, hexVal h2, hexVal h3, hexVal h4 with
            | some a, some b, some c2, some d =>
              jparseStringAux fuel (Char.ofNat (((a * 16 + b) * 16 + c2) * 16 + d) :: acc) t3
            | _, _, _, _ => none
          | _ => none
        else none
    else if c.toNat < 32 then none
    else jparseStringAux fuel (c :: acc) t

/-- Fractional part of a JSON number lexeme (empty when absent). -/
def lexFrac (s : Str) : Str × Str :=
  match s with
  | '.' :: t =>
    let d := t.takeWhile Char.isDigit
    if d = [] then ([], s) else ('.' :: d, t.drop d.length)
  | _ => ([], s)

/-- Exponent part of a JSON number lexeme (empty when absent). -/
def lexExp (s : Str) : Str × Str :=
  match s with
  | c :: t =>
    if c = 'e' ∨ c = 'E' then
      match t with
      | sgn :: t2 =>
        if sgn = '+' ∨ sgn = '-' then
          let d := t2.takeWhile Char.isDigit
          if d = [] then ([], s) else (c :: sgn :: d, t2.drop d.length)
        else
          let d := t.takeWhile Char.isDigit
          if d = [] then ([], s) else (c :: d, t.drop d.length)
      | [] => ([], s)
    else ([], s)
  | [] => ([], s)

def jparseNumber (s : Str) : Option (Str × Str) :=
  let p := match s with
    | '-' :: t => ((['-'] : Str), t)
    | _ => (([] : Str), s)
  match p.2 with
  | c :: _ =>
    if c.isDigit then
      let ip := if c = '0' then ['0'] else p.2.takeWhile Char.isDigit
      let r1 := p.2.drop ip.length
      let fr := lexFrac r1
      let ex := lexExp fr.2
      some (p.1 ++ ip ++ fr.1 ++ ex.1, ex.2)
    else none
  | [] => none

mutual

def jparseValue : Nat → Str → Option (JValue × Str)
  | 0, _ => none
  | fuel + 1, s =>
    match jskip s with
    | [] => none
    | c :: t =>
      if c = '\x7b' then
        match jskip t with
        | '\x7d' :: t2 => some (.jobj [], t2)
        | t2 => jparseMembers fuel [] t2
      else if c = '[' then
        match jskip t with
        | ']' :: t2 => some (.jarr [], t2)
        | t2 => jparseElems fuel [] t2
      else if c = '"' then
        match jparseStringAux (t.length + 1) [] t with
        | some (str, rest) => some (.jstr str, rest)
        | none => none
      else if c = 't' then
        if (lit "rue").isPrefixOf t then some (.jbool true, t.drop 3) else none
      else if c = 'f' then
        if (lit "alse").isPrefixOf t then some (.jbool false, t.drop 4) else none
      else if c = 'n' then
        if (lit "ull").isPrefixOf t then some (.jnull, t.drop 3) else none
      else
        match jparseNumber (c :: t) with
        | some (lex, rest) => some (.jnum lex, rest)
        | none => none

def jparseMembers : Nat → List (Str × JValue) → Str → Option (JValue × Str)
  | 0, _, _ => none
  | fuel + 1, acc, s =>
    match s with
    | '"' :: t =>
      match jparseStringAux (t.length + 1) [] t with
      | none => none
      | some (key, r1) =>
        match jskip r1 with
        | ':' :: r2 =>
          match jparseValue fuel (jskip r2) with
          | none => none
          | some (v, r3) =>
            match jskip r3 with
            | ',' :: r4 => jparseMembers fuel ((key, v) :: acc) (jskip r4)
            | '\x7d' :: r4 => some (.jobj ((key, v) :: acc).reverse, r4)
            | _ => none
        | _ => none
    | _ => none

def jparseElems : Nat → List JValue → Str → Option (JValue × Str)
  | 0, _, _ => none
  | fuel + 1, acc, s =>
    match jparseValue fuel s with
    | none => none
    | some (v, r1) =>
      match jskip r1 with
      | ',' :: r2 => jparseElems fuel (v :: acc) (jskip r2)
      | ']' :: r2 => some (.jarr (v :: acc).reverse, r2)
      | _ => none

end

/-- `json.loads`: parse one JSON document; trailing non-whitespace input is
an error ("Extra data"), reported as `none` like any other parse failure. -/
def jsonParse (s : Str) : Option JValue :=
  match jparseValue (s.length + 1) s with
  | some (v, rest) => if jskip rest = [] then some v else none
  | none => none

/-- Python dict construction keeps the last binding of a duplicated key,
so lookups on a `jobj` take the last matching member. -/
def jobjGetLast (kvs : List (Str × JValue)) (k : Str) : Option JValue :=
  match kvs with
  | [] => none
  | (k', v) :: t =>
    match jobjGetLast t k with
    | some r => some r
    | none => if k' = k then some v else none

def isJObj : JValue → Bool
  | .jobj _ => true
  | _ => false

/-- Python truthiness of a JSON-derived value. -/
def pyTruthy : JValue → Bool
  | .jnull => false
  | .jbool b => b
  | .jnum lex =>
    let mantissa := lex.takeWhile (fun c => c ≠ 'e' ∧ c ≠ 'E')
    ! (mantissa.filter Char.isDigit).all (· = '0')
  | .jstr s => ! s.isEmpty
  | .jarr l => ! l.isEmpty
  | .jobj m => ! m.isEmpty

mutual

/-- Python `repr` of a JSON-derived value (string quoting simplified to
plain double quotes; numeric lexemes kept verbatim). -/
def pyRepr : JValue → Str
  | .jnull => lit "None"
  | .jbool true => lit "True"
  | .jbool false => lit "False"
  | .jnum lex => lex
  | .jstr s => '"' :: s ++ ['"']
  | .jarr l => '[' :: pyReprElems l ++ [']']
  | .jobj m => '\x7b' :: pyReprMembers m ++ ['\x7d']

def pyReprElems : List JValue → Str
  | [] => []
  | [x] => pyRepr x
  | x :: y :: t => pyRepr x ++ lit ", " ++ pyReprElems (y :: t)

def pyReprMembers : List (Str × JValue) → Str
  | [] => []
  | [kv] => '"' :: kv.1 ++ lit "\": " ++ pyRepr kv.2
  | kv :: kv2 :: t => '"' :: kv.1 ++ lit "\": " ++ pyRepr kv.2 ++ lit ", " ++ pyReprMembers (kv2 :: t)

end

/-- Python `str()` of a JSON-derived value. -/
def pyStr : JValue → Str
  | .jstr s => s
  | v => pyRepr v

/-- Python `key in v` for a string key: substring test on strings, element
equality on lists, key membership on dicts; `TypeError` otherwise. -/
def pyInStr (kw : Str) (v : JValue) : Except Str Bool :=
  match v with
  | .jstr s => .ok (containsSub s kw)
  | .jarr l => .ok (l.any (fun x => match x with | .jstr t => t == kw | _ => false))
  | .jobj m => .ok (m.any (fun kv => kv.1 == kw))
  | _ => .error (lit "TypeError: argument is not iterable")

/-- Python `d.get(k, default)` on a dict-shaped value. -/
def pyDictGet (v : JValue) (k : Str) (d : JValue) : JValue :=
  match v with
  | .jobj m => (jobjGetLast m k).getD d
  | _ => d

/-- Python `==` between a JSON-derived value and a string literal. -/
def pyEqStrJ (v : JValue) (s : Str) : Bool :=
  match v with
  | .jstr t => t == s
  | _ => false

/-- Iterating a JSON-derived value: lists yield elements, strings yield
one-character strings, dicts yield their keys; `TypeError` otherwise. -/
def pyIterate : JValue → Except Str (List JValue)
  | .jarr l => .ok l
  | .jstr s => .ok (s.map (fun c => .jstr [c]))
  | .jobj m => .ok (m.map (fun kv => .jstr kv.1))
  | _ => .error (lit "TypeError: object is not iterable")

/-! ## Tool-call text protocol: `_parse_tool_call_from_text`
(src/backend/app/infrastructure/external/llm/openai_llm.py, lines 58-89)

The three fenced-block regular expressions are specialised to direct
scanning algorithms.  For each pattern the overall match runs from the
leftmost viable start to the earliest closing fence, and the extracted
candidate is subsequently `.strip()`-ed (patterns 1 and 2) or
`.strip(backtick).strip()`-ed (pattern 3), which makes the lazy/greedy
fine structure of the inner `\s*\n?(.*?)\n?` groups irrelevant: the
candidate is always the whitespace-stripped text between the fences. -/

def fenceTC : Str := lit "```tool_call"

def fence3 : Str := lit "```"

def fenceJson : Str := lit "```json"

/-- Pattern 1: a block fenced by the reserved tag.
Regex `r'```tool_call\s*\n?(.*?)\n?```'` with DOTALL: the match starts at
the first occurrence of the tag and ends at the first triple backtick
after it; no occurrence of a closing fence after the first tag occurrence
implies no match anywhere. -/
def strat1 (text : Str) : Option Str :=
  match findSub text fenceTC with
  | none => none
  | some i =>
    let after := text.drop (i + 12)
    match findSub after fence3 with
    | none => none
    | some j => some (pyStrip (after.take j))

/-- Pattern 2: regex `r'```json\s*tool_call\s*\n?(.*?)\n?```'`.  Scans for
a start position carrying the literal pieces (no whitespace character can
begin `tool_call`, so the `\s*` run between them is forced), then takes
the earliest closing fence; a start with no closing fence is skipped and
scanning resumes one character later. -/
def strat2Aux : Str → Option Str
  | [] => none
  | s@(_ :: t) =>
    if fenceJson.isPrefixOf s then
      let r := s.drop 7
      let w := (r.takeWhile pyIsSpace).length
      let r2 := r.drop w
      if (lit "tool_call").isPrefixOf r2 then
        let body := r2.drop 9
        match findSub body fence3 with
        | none => strat2Aux t
        | some j => some (pyStrip (body.take j))
      else strat2Aux t
    else strat2Aux t

def strat2 (text : Str) : Option Str := strat2Aux text

/-- Closing-fence search for pattern 3: the first position whose character
is a closing brace followed, after a maximal whitespace run, by a triple
backtick; returns the index of that fence. -/
def strat3Find : Str → Nat → Option Nat
  | [], _ => none
  | c :: t, idx =>
    if c = '\x7d' then
      let w := (t.takeWhile pyIsSpace).length
      if fence3.isPrefixOf (t.drop w) then some (idx + 1 + w)
      else strat3Find t (idx + 1)
    else strat3Find t (idx + 1)

/-- Pattern 3: regex matching any fenced block opening on a brace-quoted
`name` key.  The candidate handed to `json.loads` is
`group(0).strip(backtick).strip()`, i.e. the whitespace-stripped text
between the two fences. -/
def strat3Aux : Str → Option Str
  | [] => none
  | s@(_ :: t) =>
    if fence3.isPrefixOf s then
      let r := s.drop 3
      let w := (r.takeWhile pyIsSpace).length
      let r2 := r.drop w
      match r2 with
      | ob :: qc :: r4 =>
        if ob = '\x7b' && (qc = '"' || qc = '\x27') && (lit "name").isPrefixOf r4
            && (r4.drop 4).head? = some qc then
          match strat3Find (r4.drop 5) 0 with
          | some fi => some (pyStrip (r.take (w + 7 + fi)))
          | none => strat3Aux t
        else strat3Aux t
      | _ => strat3Aux t
    else strat3Aux t

def strat3 (text : Str) : Option Str := strat3Aux text

/-- One iteration of the strategy loop: parse the candidate (a JSON
failure falls through to the next strategy) and test
`"name" in parsed and "arguments" in parsed` — where `in` on a non-dict,
non-list, non-string parse raises `TypeError`, which the loop's
`except json.JSONDecodeError` does not catch. -/
def stratParse (cand : Option Str) : Except Str (Option JValue) :=
  match cand with
  | none => .ok none
  | some c =>
    match jsonParse c with
    | none => .ok none
    | some v =>
      match pyInStr (lit "name") v with
      | .error e => .error e
      | .ok false => .ok none
      | .ok true =>
        match pyInStr (lit "arguments") v with
        | .error e => .error e
        | .ok false => .ok none
        | .ok true => .ok (some v)

def allowKeywords : List Str :=
  [lit "shell_", lit "file_", lit "browser_", lit "search_", lit "message_"]

/-- Python `any(keyword in func_name for keyword in allowKeywords)` with
its lazy evaluation and `TypeError` propagation. -/
def pyAnyContains : List Str → JValue → Except Str Bool
  | [], _ => .ok false
  | kw :: t, v =>
    match pyInStr kw v with
    | .error e => .error e
    | .ok true => .ok true
    | .ok false => pyAnyContains t v

/-- The last-resort strategy (lines 76-87): the substring from the first
opening brace to the last closing brace of the whole text, accepted when
it parses as JSON with `name` and `arguments` keys and the name passes
the allow-keyword check. -/
def lastResortParse (text : Str) : Except Str (Option JValue) :=
  match findCharIdx text '\x7b', rfindCharIdx text '\x7d' with
  | some bs, some be =>
    if bs < be then
      let cand := strSlice text bs (be + 1)
      match jsonParse cand with
      | none => .ok none
      | some v =>
        match pyInStr (lit "name") v with
        | .error e => .error e
        | .ok false => .ok none
        | .ok true =>
          match pyInStr (lit "arguments") v with
          | .error e => .error e
          | .ok false => .ok none
          | .ok true =>
            let fn := pyDictGet v (lit "name") .jnull
            match pyAnyContains allowKeywords fn with
            | .error e => .error e
            | .ok true => .ok (some v)
            | .ok false => .ok none
    else .ok none
  | _, _ => .ok none

/-- `_parse_tool_call_from_text`: the three fenced strategies in priority
order, then the last resort. -/
def parseToolCallFromText (text : Str) : Except Str (Option JValue) :=
  match stratParse (strat1 text) with
  | .error e => .error e
  | .ok (some v) => .ok (some v)
  | .ok none =>
    match stratParse (strat2 text) with
    | .error e => .error e
    | .ok (some v) => .ok (some v)
    | .ok none =>
      match stratParse (strat3 text) with
      | .error e => .error e
      | .ok (some v) => .ok (some v)
      | .ok none => lastResortParse text

/-- The synthesized tool call (`_convert_text_to_tool_calls`): name and
arguments of the parsed block.  The fresh `call_` correlation id and the
string serialisation of the arguments are omitted from the model. -/
structure ToolCallModel where
  name : JValue
  arguments : JValue

/-- `_convert_text_to_tool_calls` (lines 154-172): empty parse results are
falsy; indexing a non-dict parse with a string key raises `TypeError`. -/
def convertTextToToolCalls (text : Str) : Except Str (Option ToolCallModel) :=
  match parseToolCallFromText text with
  | .error e => .error e
  | .ok none => .ok none
  | .ok (some parsed) =>
    if pyTruthy parsed then
      match parsed with
      | .jobj m =>
        .ok (some ⟨(jobjGetLast m (lit "name")).getD .jnull,
                   (jobjGetLast m (lit "arguments")).getD .jnull⟩)
      | _ => .error (lit "TypeError: indices must be integers")
    else .ok none

/-- `re.sub(r'```tool_call\s*\n?.*?\n?```', '', text)`: repeatedly remove
the region from each tag occurrence to the earliest closing fence,
resuming the scan after the removed region.  Fuel `length + 1` is ample:
each removal consumes at least the 12-character tag. -/
def stripTCAux : Nat → Str → Str
  | 0, text => text
  | fuel + 1, text =>
    match findSub text fenceTC with
    | none => text
    | some i =>
      let after := text.drop (i + 12)
      match findSub after fence3 with
      | none => text
      | some j => text.take i ++ stripTCAux fuel (after.drop (j + 3))

def stripToolCallFences (text : Str) : Str := stripTCAux (text.length + 1) text

/-- The reply of `OpenAILLM.ask` relevant to the text protocol: the
visible content and the synthesized tool call, after post-processing. -/
structure AskReply where
  content : Option Str
  toolCall : Option ToolCallModel

/-- The text-tools post-processing of `OpenAILLM.ask` (lines 222-228):
when the reply content is truthy and decodes to a tool call, the content
is rewritten to the fence-stripped, whitespace-stripped text, empty
becoming `None`, and the synthesized call is attached. -/
def askPostProcess (content : Option Str) : Except Str AskReply :=
  match content with
  | some text =>
    if text.isEmpty then .ok ⟨some text, none⟩
    else
      match convertTextToToolCalls text with
      | .error e => .error e
      | .ok none => .ok ⟨some text, none⟩
      | .ok (some tc) =>
        let clean := pyStrip (stripToolCallFences text)
        .ok ⟨if clean.isEmpty then none else some clean, some tc⟩
  | none => .ok ⟨none, none⟩

/-! ## `OpenAILLM.ask` retry loop (lines 188-238)

The completion service is an oracle mapping the attempt index to its
outcome: a reply, a choice-less response, or a transport exception (the
`except Exception` arm).  `max_retries = 3`, `base_delay = 1.0` second;
the sleep before retry `attempt` lasts `base_delay * 2 ^ (attempt - 1)`
seconds.  The model records the number of service calls, the backoff
delays in order, and the final outcome (`.error` = raised to caller). -/

inductive AttemptOutcome where
  | success (reply : Str)
  | noChoices
  | failure (err : Str)

def AttemptOutcome.isSuccess : AttemptOutcome → Bool
  | .success _ => true
  | _ => false

structure AskTrace where
  calls : Nat
  delays : List Nat
  outcome : Except Str Str

/-- One loop step at `attempt`, with `remaining` further attempts allowed
after this one. -/
def askFrom (f : Nat → AttemptOutcome) : Nat → Nat → List Nat → Nat → AskTrace
  | attempt, remaining, delaysAcc, calls =>
    let delays := if attempt > 0 then delaysAcc ++ [2 ^ (attempt - 1)] else delaysAcc
    match f attempt with
    | .success r => ⟨calls + 1, delays, .ok r⟩
    | .noChoices =>
      match remaining with
      | 0 => ⟨calls + 1, delays,
              .error (lit "ValueError: Failed after 4 attempts: API returned invalid response (no choices) on attempt " ++ natStr (attempt + 1))⟩
      | rem + 1 => askFrom f (attempt + 1) rem delays (calls + 1)
    | .failure e =>
      match remaining with
      | 0 => ⟨calls + 1, delays, .error e⟩
      | rem + 1 => askFrom f (attempt + 1) rem delays (calls + 1)

/-- The whole retry loop: first attempt at index 0, then up to
`max_retries = 3` retries. -/
def askRetryLoop (f : Nat → AttemptOutcome) : AskTrace := askFrom f 0 3 [] 0

/-! ## LocalSandbox (src/backend/app/infrastructure/external/sandbox/local_sandbox.py)

The file system is modelled explicitly: a map from resolved paths to file
contents plus a set of directory paths.  OS primitives that can raise in
the source (`open` on a missing file, `os.listdir` on a missing or
non-directory path, `re.compile` on a bad pattern) are the only failure
sources of the model; the per-operation try/except blocks of the source
convert them into `ToolResult`s — except `file_download`, which has no
try/except and whose exceptions escape (`Except.error`). -/

def SANDBOX_WORKDIR : Str := lit "/home/runner/workspace/sandbox_workspace"

def HOME_UBUNTU : Str := lit "/home/ubuntu"

/-- `os.path.join(a, b)` for two components. -/
def osPathJoin (a b : Str) : Str :=
  if b.head? = some '/' then b
  else if a = [] then b
  else if a.getLast? = some '/' then a ++ b
  else a ++ '/' :: b

/-- `LocalSandbox._resolve_path` (lines 315-320). -/
def resolvePath (path : Str) : Str :=
  if HOME_UBUNTU.isPrefixOf path then replaceFirst path HOME_UBUNTU SANDBOX_WORKDIR
  else if path.head? = some '/' then path
  else osPathJoin SANDBOX_WORKDIR path

/-- Payload of a `ToolResult` (the `data` mapping, one shape per operation). -/
inductive TRData where
  | nodata
  | shell (output : Str) (exitCode : Int) (id : Str)
  | flag (b : Bool)
  | content (text : Str) (lineCount : Nat)
  | entries (es : List (Str × Str × Nat))
  | matches (ms : List (Nat × Str)) (count : Nat)
  | files (fs : List Str) (count : Nat)
  | console (lines : List Str) (running : Bool)

/-- Modelled from the spec: `ToolResult {success, message: text, data}` —
the uniform return value of every sandbox operation (the class itself
lives in `app/domain/models/tool_result.py`, outside the provided
sources). -/
structure ToolResult where
  success : Bool
  message : Str := []
  data : TRData := .nodata

/-- File-system model: resolved path to content, plus directories. -/
structure FS where
  files : List (Str × Str)
  dirs : List Str

def fsLookup (fs : FS) (p : Str) : Option Str :=
  (fs.files.find? (fun kv => kv.1 == p)).map (·.2)

def isFileFS (fs : FS) (p : Str) : Bool := (fsLookup fs p).isSome

def isDirFS (fs : FS) (p : Str) : Bool := fs.dirs.contains p

def fsStore (fs : FS) (p c : Str) : FS :=
  if isFileFS fs p then
    { fs with files := fs.files.map (fun kv => if kv.1 == p then (p, c) else kv) }
  else
    { fs with files := fs.files ++ [(p, c)] }

/-- `os.path.dirname`. -/
def dirname (p : Str) : Str :=
  match rfindCharIdx p '/' with
  | none => []
  | some 0 => ['/']
  | some i => p.take i

def addDir (ds : List Str) (d : Str) : List Str :=
  if ds.contains d then ds else ds ++ [d]

/-- `LocalSandbox.file_write` (lines 158-174).  In the model the body has
no failure source (`os.makedirs(..., exist_ok=True)` and `open(..., mode)`
always succeed on the modelled file system), so the try/except always
takes the success path. -/
def file_write (fs : FS) (file content : Str)
    (append leadingNewline trailingNewline _sudo : Bool) : ToolResult × FS :=
  let target := resolvePath file
  let fs1 : FS := { fs with dirs := addDir fs.dirs (dirname target) }
  let final0 := if leadingNewline then '\n' :: content else content
  let final := if trailingNewline then final0 ++ ['\n'] else final0
  let newContent := if append then (fsLookup fs1 target).getD [] ++ final else final
  (⟨true, lit "File written: " ++ file, .nodata⟩, fsStore fs1 target newContent)

/-- Python slice index normalisation for `lines[s:e]`. -/
def pySliceFrom (len : Nat) (i : Int) : Nat :=
  if i < 0 then (len - (-i).toNat) else min i.toNat len

def pySliceList (l : List Str) (s e : Int) : List Str :=
  (l.take (pySliceFrom l.length e)).drop (pySliceFrom l.length s)

/-- `LocalSandbox.file_read` (lines 176-191).  A missing file raises
`FileNotFoundError`, caught explicitly; `start_line or 0` and
`end_line or len(lines)` replace both `None` and `0` by the default. -/
def file_read (fs : FS) (file : Str) (startLine endLine : Option Int) : ToolResult :=
  let target := resolvePath file
  match fsLookup fs target with
  | none => ⟨false, lit "File not found: " ++ file, .nodata⟩
  | some content =>
    let lines := pySplitKeepEnds [] content
    let lines2 :=
      if startLine.isSome || endLine.isSome then
        let s : Int := match startLine with | some v => v | none => 0
        let e : Int := match endLine with
          | some v => if v = 0 then (lines.length : Int) else v
          | none => (lines.length : Int)
        pySliceList lines s e
      else lines
    ⟨true, [], .content lines2.flatten lines2.length⟩

/-- `LocalSandbox.file_exists` (lines 193-195): no try/except, but no
failure source either (`os.path.exists` returns a boolean). -/
def file_exists (fs : FS) (path : Str) : ToolResult :=
  let target := resolvePath path
  ⟨true, [], .flag (isFileFS fs target || isDirFS fs target)⟩

def removeTree (fs : FS) (p : Str) : FS :=
  { files := fs.files.filter (fun kv => ¬ (p ++ ['/']).isPrefixOf kv.1),
    dirs := fs.dirs.filter (fun d => ¬ (d == p || (p ++ ['/']).isPrefixOf d)) }

/-- `LocalSandbox.file_delete` (lines 197-207): a path that is neither a
file nor a directory is a silent no-op, still reported as deleted. -/
def file_delete (fs : FS) (path : Str) : ToolResult × FS :=
  let target := resolvePath path
  if isFileFS fs target then
    (⟨true, lit "Deleted: " ++ path, .nodata⟩,
     { fs with files := fs.files.filter (fun kv => ¬ kv.1 == target) })
  else if isDirFS fs target then
    (⟨true, lit "Deleted: " ++ path, .nodata⟩, removeTree fs target)
  else
    (⟨true, lit "Deleted: " ++ path, .nodata⟩, fs)

/-- Immediate child name of `target` carried by path `p`, if any. -/
def childOf (target p : Str) : Option Str :=
  if (target ++ ['/']).isPrefixOf p then
    let rest := p.drop (target.length + 1)
    if rest ≠ [] ∧ ¬ rest.contains '/' then some rest else none
  else none

/-- `LocalSandbox.file_list` (lines 209-222): `os.listdir` raises on a
missing path or on a file, and the generic except wraps the exception
text. -/
def file_list (fs : FS) (path : Str) : ToolResult :=
  let target := resolvePath path
  if isDirFS fs target then
    let fileEntries := fs.files.filterMap
      (fun kv => (childOf target kv.1).map (fun n => (n, lit "file", kv.2.length)))
    let dirEntries := fs.dirs.filterMap
      (fun d => (childOf target d).map (fun n => (n, lit "directory", 0)))
    ⟨true, [], .entries (fileEntries ++ dirEntries)⟩
  else if isFileFS fs target then
    ⟨false, lit "NotADirectoryError: " ++ target, .nodata⟩
  else
    ⟨false, lit "FileNotFoundError: " ++ target, .nodata⟩

/-- `LocalSandbox.file_replace` (lines 224-237): read the file (a missing
file's `FileNotFoundError` is wrapped by the generic except), report
failure when the needle is absent, otherwise replace the first occurrence
and write back. -/
def file_replace (fs : FS) (file oldStr newStr : Str) : ToolResult × FS :=
  let target := resolvePath file
  match fsLookup fs target with
  | none => (⟨false, lit "FileNotFoundError: " ++ target, .nodata⟩, fs)
  | some content =>
    if containsSub content oldStr then
      (⟨true, lit "String replaced successfully", .nodata⟩,
       fsStore fs target (replaceFirst content oldStr newStr))
    else
      (⟨false, lit "String not found in file", .nodata⟩, fs)

/-- `LocalSandbox.file_search` (lines 239-251): `rx` models `re.compile`
followed by per-line `pattern.search` (`none` = `re.error`, wrapped by
the generic except).  Matched lines are reported right-stripped with
1-based numbers. -/
def file_search (rx : Str → Option (Str → Bool)) (fs : FS) (file regex : Str) : ToolResult :=
  let target := resolvePath file
  match fsLookup fs target with
  | none => ⟨false, lit "FileNotFoundError: " ++ target, .nodata⟩
  | some content =>
    match rx regex with
    | none => ⟨false, lit "re.error: bad pattern: " ++ regex, .nodata⟩
    | some test =>
      let lines := pySplitKeepEnds [] content
      let ms := lines.enum.filterMap
        (fun p => if test p.2 then some (p.1 + 1, pyRStrip p.2) else none)
      ⟨true, [], .matches ms ms.length⟩

/-- Shell-style glob matching for `glob.glob(..., recursive=True)`
patterns: `**` crosses path separators, `*` and `?` do not (character
classes are not modelled). -/
def globMatchAux : Nat → Str → Str → Bool
  | 0, _, _ => false
  | fuel + 1, pat, s =>
    match pat with
    | [] => s = []
    | '*' :: '*' :: pt =>
      globMatchAux fuel pt s ||
        (match s with
         | [] => false
         | _ :: st => globMatchAux fuel ('*' :: '*' :: pt) st)
    | '*' :: pt =>
      globMatchAux fuel pt s ||
        (match s with
         | c :: st => ¬ c = '/' && globMatchAux fuel ('*' :: pt) st
         | [] => false)
    | '?' :: pt =>
      (match s with
       | c :: st => ¬ c = '/' && globMatchAux fuel pt st
       | [] => false)
    | c :: pt =>
      (match s with
       | c' :: st => c = c' && globMatchAux fuel pt st
       | [] => false)

def globMatch (pat s : Str) : Bool := globMatchAux (pat.length + s.length + 1) pat s

/-- `LocalSandbox.file_find` (lines 253-260): glob under
`target/**/pattern`, capping the reported list at 100 entries while
counting all matches. -/
def file_find (fs : FS) (path globPat : Str) : ToolResult :=
  let target := resolvePath path
  let pattern := osPathJoin (osPathJoin target (lit "**")) globPat
  let found := (fs.files.map (·.1) ++ fs.dirs).filter (globMatch pattern)
  ⟨true, [], .files (found.take 100) found.length⟩

/-- `LocalSandbox.file_upload` (lines 262-271): write the uploaded bytes;
no failure source in the model. -/
def file_upload (fs : FS) (fileData path : Str) : ToolResult × FS :=
  let target := resolvePath path
  let fs1 : FS := { fs with dirs := addDir fs.dirs (dirname target) }
  (⟨true, lit "File uploaded to " ++ path, .nodata⟩, fsStore fs1 target fileData)

/-- `LocalSandbox.file_download` (lines 273-277): NO try/except — `open`
on a missing file raises `FileNotFoundError` straight to the caller, and
on success the raw byte stream (not a `ToolResult`) is returned. -/
def file_download (fs : FS) (path : Str) : Except Str Str :=
  let target := resolvePath path
  match fsLookup fs target with
  | none => .error (lit "FileNotFoundError: " ++ target)
  | some content => .ok content

/-! ### `LocalShellSession.exec_command` (lines 29-79)

The subprocess is an oracle: it either completes after some wall-clock
duration with an exit code and combined output, never completes, or the
spawn/wait raises.  `asyncio.wait_for(..., timeout=120)` times out
exactly when the process takes longer than 120 seconds; the handler
kills the process (third component of the result) and reports
`exit_code = -1` with a timeout message. -/

structure ShellSessionState where
  sessionId : Str
  outputLines : List Str
  consoleLines : List Str
  running : Bool

inductive ProcOutcome where
  | completes (duration : Nat) (exitCode : Int) (stdout : Str)
  | hangs
  | raises (msg : Str)

def EXEC_TIMEOUT : Nat := 120

def CONSOLE_MAX : Nat := 500

def execCommand (sess : ShellSessionState) (outcome : ProcOutcome) :
    ToolResult × ShellSessionState × Bool :=
  match outcome with
  | .completes duration code out =>
    if duration > EXEC_TIMEOUT then
      (⟨false, lit "Command timed out after 120 seconds",
        .shell (lit "Command timed out") (-1) sess.sessionId⟩,
       { sess with running := false }, true)
    else
      let lines := pySplitlines out
      let console0 := sess.consoleLines ++ lines
      let console :=
        if console0.length > CONSOLE_MAX then console0.drop (console0.length - CONSOLE_MAX)
        else console0
      (⟨code == 0, lit "Exit code: " ++ intStr code, .shell out code sess.sessionId⟩,
       { sess with outputLines := lines, consoleLines := console, running := false }, false)
  | .hangs =>
    (⟨false, lit "Command timed out after 120 seconds",
      .shell (lit "Command timed out") (-1) sess.sessionId⟩,
     { sess with running := false }, true)
  | .raises e =>
    (⟨false, e, .shell e (-1) sess.sessionId⟩, { sess with running := false }, false)

/-- A fresh session as created by `_get_or_create_session`. -/
def newSession (id : Str) : ShellSessionState := ⟨id, [], [], false⟩

/-- Iterated invocations of `exec_command` against one session. -/
def runCommands (sess : ShellSessionState) : List ProcOutcome → ShellSessionState
  | [] => sess
  | o :: t => runCommands (execCommand sess o).2.1 t

/-! ## ExecutionAgent (src/backend/app/domain/services/agents/execution.py)

The step/event data model lives in `app/domain/models/{plan,event}.py`,
which is not among the provided sources; it is modelled from the spec
(sections 3 and 4.3).  The inner turn-by-turn loop `self.execute(prompt)`
(in `agents/base.py`, also not provided) is abstracted as the list of
events it produces; the external JSON parser, the pydantic `Step`
validation and the auto-execution side effects are oracles. -/

/-- Modelled from the spec: `Step.status ∈ {PENDING, RUNNING, COMPLETED,
FAILED}` (`ExecutionStatus` of `app/domain/models/plan.py`). -/
inductive ExecutionStatus where
  | pending
  | running
  | completed
  | failed

/-- Modelled from the spec: the `StepEvent.status` sub-states used by the
engine (STARTED, COMPLETED, FAILED). -/
inductive StepStatus where
  | started
  | completed
  | failed

/-- Modelled from the spec: `ToolEvent.status ∈ {CALLING, CALLED}`. -/
inductive ToolStatus where
  | calling
  | called

/-- Modelled from the spec: `Step {description, status, success, result:
text, attachments, error}` (`app/domain/models/plan.py`). -/
structure StepState where
  description : Str
  status : ExecutionStatus
  success : Bool
  result : Str
  attachments : List Str
  error : Option Str

/-- Modelled from the spec: the closed `Event` union — StepEvent,
MessageEvent, ToolEvent, ErrorEvent, WaitEvent, DoneEvent
(`app/domain/models/event.py`).  StepEvents carry a snapshot of the step
at emission time; tool argument values are taken as text. -/
inductive Ev where
  | stepEv (status : StepStatus) (step : StepState)
  | message (text : Str) (attachments : List Str)
  | toolEv (functionName : Str) (status : ToolStatus) (args : List (Str × Str))
  | errorEv (error : Str)
  | waitEv
  | doneEv

def askUserName : Str := lit "message_ask_user"

/-- `event.function_args.get("text", "")`. -/
def argsGetText (args : List (Str × Str)) : Str :=
  ((args.find? (fun kv => kv.1 == lit "text")).map (·.2)).getD []

/-- Oracles for the engine's external collaborators: the lenient JSON
parser (`self.json_parser.parse`, may raise), pydantic
`Step.model_validate` (`none` = validation failure; otherwise the
validated success/result/attachments), and
`self._auto_execute_operations` whose outcome strings are logged only. -/
structure EngineCtx where
  parse : Str → Except Str JValue
  validate : JValue → Option (Bool × Str × List Str)
  autoExec : JValue → List Str

/-- Lines 135-150: parse the terminal message, wrapping non-dict parses
as `{success: true, result: str(value) if value else message,
attachments: []}` and parse failures as the raw text. -/
def engineParse (ctx : EngineCtx) (msg : Str) : JValue :=
  match ctx.parse msg with
  | .ok v =>
    if isJObj v then v
    else .jobj [(lit "success", .jbool true),
                (lit "result", .jstr (if pyTruthy v then pyStr v else msg)),
                (lit "attachments", .jarr [])]
  | .error _ => .jobj [(lit "success", .jbool true),
                       (lit "result", .jstr msg),
                       (lit "attachments", .jarr [])]

/-- The `result` fallback `parsed_response.get("result", event.message)`,
rendered as text for the spec-modelled `Step.result` field. -/
def fallbackResult (parsed : JValue) (msg : Str) : Str :=
  match parsed with
  | .jobj m =>
    match jobjGetLast m (lit "result") with
    | some v => pyStr v
    | none => msg
  | _ => msg

/-- The `attachments` fallback `parsed_response.get("attachments", [])`,
as a list of path texts. -/
def fallbackAttachments (parsed : JValue) : List Str :=
  match parsed with
  | .jobj m =>
    match jobjGetLast m (lit "attachments") with
    | some (.jarr l) => l.map pyStr
    | _ => []
  | _ => []

/-- Processing of one inner event by `execute_step`'s loop body (lines
129-178).  Returns the updated step, the events yielded for this inner
event, and whether the generator returned (the ask-user CALLED arm).
Note the ErrorEvent arm has no `continue`, so the ErrorEvent itself is
re-yielded after the FAILED StepEvent. -/
def stepEvents (ctx : EngineCtx) (st : StepState) (e : Ev) : StepState × List Ev × Bool :=
  match e with
  | .errorEv err =>
    let st' := { st with status := .failed, error := some err }
    (st', [.stepEv .failed st', .errorEv err], false)
  | .message msg _ =>
    let st1 := { st with status := .completed }
    let parsed := engineParse ctx msg
    let _execResults := ctx.autoExec parsed
    let st2 :=
      match ctx.validate parsed with
      | some (su, res, atts) => { st1 with success := su, result := res, attachments := atts }
      | none => { st1 with success := true, result := fallbackResult parsed msg,
                           attachments := fallbackAttachments parsed }
    (st2, .stepEv .completed st2 ::
          (if st2.result.isEmpty then [] else [.message st2.result []]), false)
  | .toolEv fn stat args =>
    if fn == askUserName then
      match stat with
      | .calling => (st, [.message (argsGetText args) []], false)
      | .called => (st, [.waitEv], true)
    else (st, [e], false)
  | _ => (st, [e], false)

/-- The event loop of `execute_step`: process inner events in order; an
early generator return skips the trailing status assignment, while
exhaustion of the stream unconditionally sets COMPLETED (line 179). -/
def runEvents (ctx : EngineCtx) : StepState → List Ev → StepState × List Ev
  | st, [] => ({ st with status := .completed }, [])
  | st, e :: rest =>
    let r1 := stepEvents ctx st e
    if r1.2.2 then (r1.1, r1.2.1)
    else
      let r2 := runEvents ctx r1.1 rest
      (r2.1, r1.2.1 ++ r2.2)

/-- `ExecutionAgent.execute_step` (lines 119-179) over the abstracted
inner event stream: set RUNNING, emit StepEvent(STARTED), process the
stream, and (unless the ask-user arm returned early) force COMPLETED. -/
def executeStep (ctx : EngineCtx) (step : StepState) (events : List Ev) :
    StepState × List Ev :=
  let st0 := { step with status := .running }
  let r := runEvents ctx st0 events
  (r.1, .stepEv .started st0 :: r.2)

/-- An inner event that makes `execute_step` return early: a CALLED
ToolEvent for the designated ask-user tool. -/
def isStopEv : Ev → Bool
  | .toolEv fn .called _ => fn == askUserName
  | _ => false

def isWaitEv : Ev → Bool
  | .waitEv => true
  | _ => false

/-! ### `ExecutionAgent._auto_execute_operations` (lines 68-117)

The sandbox reference discovered from the tool list is `none` when no
file/shell tool carries one.  Sandbox calls go through an oracle
interface; for the file loop the model also returns the trace of
`file_write` invocations, to state which writes were issued.  The
per-entry try/except of the file loop references the loop variable
`path` in its message, which is unbound if the very first entry fails
before assignment (`NameError`, modelled by threading `lastPath`). -/

structure WriteCall where
  path : JValue
  content : JValue
  append : Bool
  leadingNewline : Bool
  trailingNewline : Bool
  sudoFlag : Bool

structure SandboxIface where
  fileWrite : JValue → JValue → Bool → Bool → Bool → Bool → Except Str ToolResult
  execCmd : Str → Str → JValue → Except Str ToolResult

/-- The skip test of the file-operations loop: `if not path or not
content: continue`. -/
def fileOpSkip (op : JValue) : Bool :=
  ! pyTruthy (pyDictGet op (lit "path") (.jstr []))
    || ! pyTruthy (pyDictGet op (lit "content") (.jstr []))

/-- The `file_operations` loop (lines 73-94). -/
def autoFileOps (sb : SandboxIface) : List JValue → Option JValue →
    Except Str (List Str × List WriteCall)
  | [], _ => .ok ([], [])
  | op :: rest, lastPath =>
    match op with
    | .jobj _ =>
      let action := pyDictGet op (lit "action") (.jstr (lit "write"))
      let path := pyDictGet op (lit "path") (.jstr [])
      let content := pyDictGet op (lit "content") (.jstr [])
      if fileOpSkip op then
        autoFileOps sb rest (some path)
      else
        let app := pyEqStrJ action (lit "append")
        let call : WriteCall := ⟨path, content, app, false, true, false⟩
        let outcome :=
          match sb.fileWrite path content app false true false with
          | .ok r =>
            lit "File " ++ pyStr action ++ lit " to " ++ pyStr path ++ lit ": " ++
              (if r.success then lit "success" else r.message)
          | .error e => lit "File operation failed for " ++ pyStr path ++ lit ": " ++ e
        match autoFileOps sb rest (some path) with
        | .ok (os, cs) => .ok (outcome :: os, call :: cs)
        | .error e => .error e
    | _ =>
      match lastPath with
      | none => .error (lit "NameError: name path is not defined")
      | some lp =>
        let outcome := lit "File operation failed for " ++ pyStr lp ++
          lit ": AttributeError: object has no attribute get"
        match autoFileOps sb rest lastPath with
        | .ok (os, cs) => .ok (outcome :: os, cs)
        | .error e => .error e

/-- The `shell_commands` loop (lines 98-115); `ids` supplies the fresh
8-character correlation ids, consumed once per executed command.
A non-text `exec_dir` raises `AttributeError` at the `startswith` call,
caught by the per-entry except into a recorded failure. -/
def autoShellCmds (sb : SandboxIface) (ids : Nat → Str) : List JValue → Nat → List Str
  | [], _ => []
  | cmd :: rest, n =>
    match cmd with
    | .jobj _ =>
      let command := pyDictGet cmd (lit "command") (.jstr [])
      let execDir := pyDictGet cmd (lit "exec_dir") (.jstr HOME_UBUNTU)
      if ! pyTruthy command then autoShellCmds sb ids rest n
      else
        match execDir with
        | .jstr d =>
          let d2 := if HOME_UBUNTU.isPrefixOf d then replaceFirst d HOME_UBUNTU SANDBOX_WORKDIR
                    else d
          let outcome :=
            match sb.execCmd (ids n) d2 command with
            | .ok r =>
              lit "Shell command " ++ pyStr command ++ lit ": " ++
                (if r.success then lit "success" else r.message)
            | .error e => lit "Shell command failed: " ++ e
          outcome :: autoShellCmds sb ids rest (n + 1)
        | _ =>
          (lit "Shell command failed: AttributeError: object has no attribute startswith")
            :: autoShellCmds sb ids rest n
    | _ =>
      (lit "Shell command failed: AttributeError: object has no attribute get")
        :: autoShellCmds sb ids rest n

/-- `_auto_execute_operations`: both loops run only when the respective
list is truthy AND a sandbox reference is attached; without a sandbox the
result is always the empty report. -/
def autoExecuteOperations (sandbox : Option SandboxIface) (ids : Nat → Str)
    (parsed : JValue) : Except Str (List Str × List WriteCall) :=
  let fileOps := pyDictGet parsed (lit "file_operations") (.jarr [])
  let part1 : Except Str (List Str × List WriteCall) :=
    match sandbox with
    | some sb =>
      if pyTruthy fileOps then
        match pyIterate fileOps with
        | .ok entries => autoFileOps sb entries none
        | .error e => .error e
      else .ok ([], [])
    | none => .ok ([], [])
  match part1 with
  | .error e => .error e
  | .ok (os1, cs) =>
    let shellCmds := pyDictGet parsed (lit "shell_commands") (.jarr [])
    match sandbox with
    | some sb =>
      if pyTruthy shellCmds then
        match pyIterate shellCmds with
        | .ok cmds => .ok (os1 ++ autoShellCmds sb ids cmds 0, cs)
        | .error e => .error e
      else .ok (os1, cs)
    | none => .ok (os1, cs)

/-- The per-entry rule of the spec for one `file_operations` entry, as a
standalone function (refinement target for the loop): skip entries with
empty path or content, otherwise record exactly one outcome string from
the write issued with `append = (action == "append")`, no leading
newline, forced trailing newline, unprivileged. -/
def specFileOpOutcome (sb : SandboxIface) (op : JValue) : Option Str :=
  let action := pyDictGet op (lit "action") (.jstr (lit "write"))
  let path := pyDictGet op (lit "path") (.jstr [])
  let content := pyDictGet op (lit "content") (.jstr [])
  if fileOpSkip op then none
  else some
    (match sb.fileWrite path content (pyEqStrJ action (lit "append")) false true false with
     | .ok r =>
       lit "File " ++ pyStr action ++ lit " to " ++ pyStr path ++ lit ": " ++
         (if r.success then lit "success" else r.message)
     | .error e => lit "File operation failed for " ++ pyStr path ++ lit ": " ++ e)

/-- The write request the spec prescribes for one entry (or none when the
entry is skipped). -/
def specFileOpCall (op : JValue) : Option WriteCall :=
  let action := pyDictGet op (lit "action") (.jstr (lit "write"))
  let path := pyDictGet op (lit "path") (.jstr [])
  let content := pyDictGet op (lit "content") (.jstr [])
  if fileOpSkip op then none
  else some ⟨path, content, pyEqStrJ action (lit "append"), false, true, false⟩

/-! ## Theorems -/

theorem aux_cons_append_ne_nil (c : Char) (s f : Str) : ¬ ((c :: s) ++ f = []) := by
  simp

theorem aux_isPrefixOf_head (c : Char) (cs p : Str) (h : (c :: cs).isPrefixOf p = true) :
    p.head? = some c := by
  cases p with
  | nil => simp [List.isPrefixOf] at h
  | cons a t =>
    simp only [List.isPrefixOf, Bool.and_eq_true, beq_iff_eq] at h
    simp [h.1]

theorem aux_trim_eq_drop (l : List Str) :
    (if l.length > CONSOLE_MAX then l.drop (l.length - CONSOLE_MAX) else l)
      = l.drop (l.length - CONSOLE_MAX) := by
  split
  · rfl
  · next hle =>
    have : l.length - CONSOLE_MAX = 0 := by unfold CONSOLE_MAX at *; omega
    rw [this, List.drop_zero]

set_option maxRecDepth 4000 in
theorem aux_exec_preserves_console (sess : ShellSessionState) (o : ProcOutcome)
    (h : sess.consoleLines.length ≤ 500) :
    (execCommand sess o).2.1.consoleLines.length ≤ 500 := by
  cases o with
  | completes d code out =>
    simp only [execCommand]
    split
    · exact h
    · split
      · show ((sess.consoleLines ++ pySplitlines out).drop
            ((sess.consoleLines ++ pySplitlines out).length - CONSOLE_MAX)).length ≤ 500
        simp only [CONSOLE_MAX, List.length_drop]
        omega
      · next hle =>
        simp only [CONSOLE_MAX] at hle
        show (sess.consoleLines ++ pySplitlines out).length ≤ 500
        omega
  | hangs => exact h
  | raises e => exact h

theorem aux_runCommands_console (outs : List ProcOutcome) (sess : ShellSessionState)
    (h : sess.consoleLines.length ≤ 500) :
    (runCommands sess outs).consoleLines.length ≤ 500 := by
  induction outs generalizing sess with
  | nil => simpa [runCommands] using h
  | cons o t ih =>
    rw [runCommands]
    exact ih _ (aux_exec_preserves_console sess o h)

/-- C9: `_resolve_path` follows the single three-case rule: a path under
the `/home/ubuntu` prefix is remapped onto the sandbox root, any other
absolute path passes through unchanged, and a relative path is joined
under the sandbox root. -/
theorem c9_resolve_path (p : Str) :
    (HOME_UBUNTU.isPrefixOf p = true → resolvePath p = SANDBOX_WORKDIR ++ p.drop 12)
    ∧ (HOME_UBUNTU.isPrefixOf p = false → p.head? = some '/' → resolvePath p = p)
    ∧ (¬ p.head? = some '/' → resolvePath p = SANDBOX_WORKDIR ++ '/' :: p) := by
  refine ⟨fun h => ?_, fun h hs => ?_, fun h => ?_⟩
  · unfold resolvePath
    rw [if_pos h]
    unfold replaceFirst
    rw [if_pos h, show HOME_UBUNTU.length = 12 from by decide]
  · unfold resolvePath
    rw [if_neg (by simp [h]), if_pos hs]
  · have hnp : ¬ HOME_UBUNTU.isPrefixOf p = true := by
      intro hp
      exact h (aux_isPrefixOf_head '/' _ p hp)
    unfold resolvePath
    rw [if_neg hnp, if_neg h]
    unfold osPathJoin
    rw [if_neg h, if_neg (by decide), if_neg (by decide)]

/-- C9 witness: the three cases at concrete paths. -/
theorem c9_witness :
    resolvePath (lit "/home/ubuntu/a.txt") = SANDBOX_WORKDIR ++ (lit "/home/ubuntu/a.txt").drop 12
    ∧ resolvePath (lit "/etc/hosts") = lit "/etc/hosts"
    ∧ resolvePath (lit "rel/x.py") = SANDBOX_WORKDIR ++ '/' :: lit "rel/x.py" :=
  ⟨(c9_resolve_path (lit "/home/ubuntu/a.txt")).1 (by decide),
   (c9_resolve_path (lit "/etc/hosts")).2.1 (by decide) (by decide),
   (c9_resolve_path (lit "rel/x.py")).2.2 (by decide)⟩

/-- C7: a command running longer than the 120-second wall clock is
killed (third component `true`) and reported as `success = false`,
`exit_code = -1`, with a message containing a timeout indicator; a
command that completes in time is reported with `success = (exit code ==
0)`.  A process that never completes is likewise killed and reported as
timed out. -/
theorem c7_timeout (sess : ShellSessionState) (d : Nat) (code : Int) (out : Str) :
    (d > 120 →
      execCommand sess (.completes d code out)
        = (⟨false, lit "Command timed out after 120 seconds",
             .shell (lit "Command timed out") (-1) sess.sessionId⟩,
           { sess with running := false }, true)
      ∧ containsSub (execCommand sess (.completes d code out)).1.message (lit "timed out") = true)
    ∧ (d ≤ 120 →
      (execCommand sess (.completes d code out)).1.success = (code == 0)
      ∧ (execCommand sess (.completes d code out)).2.2 = false)
    ∧ execCommand sess .hangs
        = (⟨false, lit "Command timed out after 120 seconds",
             .shell (lit "Command timed out") (-1) sess.sessionId⟩,
           { sess with running := false }, true) := by
  refine ⟨fun h => ?_, fun h => ?_, by rfl⟩
  · have hgt : d > EXEC_TIMEOUT := h
    constructor
    · simp only [execCommand]
      rw [if_pos hgt]
    · simp only [execCommand]
      rw [if_pos hgt]
      show containsSub (lit "Command timed out after 120 seconds") (lit "timed out") = true
      decide
  · have hle : ¬ d > EXEC_TIMEOUT := by unfold EXEC_TIMEOUT; omega
    simp only [execCommand]
    rw [if_neg hle]
    exact ⟨rfl, rfl⟩

/-- C7 witness: a 121-second run at exit code 0 and a fast failing run. -/
theorem c7_witness :
    (execCommand (newSession (lit "s1")) (.completes 121 0 (lit "partial"))).1
      = ⟨false, lit "Command timed out after 120 seconds",
          .shell (lit "Command timed out") (-1) (lit "s1")⟩
    ∧ (execCommand (newSession (lit "s1")) (.completes 3 2 (lit "oops"))).1.success = false :=
  ⟨(congrArg Prod.fst ((c7_timeout (newSession (lit "s1")) 121 0 (lit "partial")).1
      (by omega)).1).trans rfl,
   by rw [((c7_timeout (newSession (lit "s1")) 3 2 (lit "oops")).2.1 (by omega)).1]; decide⟩

/-- C10: the rolling console transcript never exceeds 500 lines over any
finite sequence of invocations (in particular from a fresh session), and
a normally-exiting invocation replaces the latest-invocation output
buffer wholesale while appending its output lines to the transcript and
trimming it to the most recent 500 lines.  (Timed-out or failed
invocations capture no output and leave both buffers untouched, which
preserves the bound.) -/
theorem c10_console (sess : ShellSessionState) (sid : Str) (outs : List ProcOutcome)
    (d : Nat) (code : Int) (out : Str) :
    (sess.consoleLines.length ≤ 500 → (runCommands sess outs).consoleLines.length ≤ 500)
    ∧ (runCommands (newSession sid) outs).consoleLines.length ≤ 500
    ∧ (d ≤ 120 →
      (execCommand sess (.completes d code out)).2.1.outputLines = pySplitlines out
      ∧ (execCommand sess (.completes d code out)).2.1.consoleLines
          = (sess.consoleLines ++ pySplitlines out).drop
              ((sess.consoleLines ++ pySplitlines out).length - 500)) := by
  refine ⟨fun h => aux_runCommands_console outs sess h,
          aux_runCommands_console outs (newSession sid) (by simp [newSession]),
          fun h => ?_⟩
  have hle : ¬ d > EXEC_TIMEOUT := by unfold EXEC_TIMEOUT; omega
  simp only [execCommand]
  rw [if_neg hle]
  exact ⟨rfl, aux_trim_eq_drop _⟩

/-- C10 witness: two normal invocations of 300 single-line outputs each,
then one of 300 more: the transcript is trimmed to 500 entries. -/
theorem c10_witness :
    (runCommands (newSession (lit "s"))
        [.completes 1 0 (List.replicate 300 'x'.toNat |>.map (fun _ => 'x') |>.intersperse '\n'),
         .completes 1 0 ((List.replicate 300 'x').intersperse '\n')]).consoleLines.length ≤ 500 :=
  (c10_console (newSession (lit "s")) (lit "s")
      [.completes 1 0 ((List.replicate 300 'x'.toNat).map (fun _ => 'x') |>.intersperse '\n'),
       .completes 1 0 ((List.replicate 300 'x').intersperse '\n')] 1 0 []).2.1

/-- C6 counterexample: `file_download` is a sandbox file operation, yet on
a missing file it raises (`FileNotFoundError` escapes to the caller)
instead of returning a `ToolResult` with `success = false` — and on
success it returns a raw byte stream, not a `ToolResult`.  The claim
that every sandbox file operation returns a `ToolResult` and never
raises is therefore false at this concrete input. -/
theorem c6_counterexample :
    file_download ⟨[], []⟩ (lit "/nope") = Except.error (lit "FileNotFoundError: /nope") := by
  rfl

/-- C6 amended: every sandbox file operation EXCEPT `file_download`
returns a `ToolResult` and never raises, representing every internal
failure as `success = false` with a non-empty message; `file_download`
alone returns the raw stream on success and propagates its exception on
a missing file. -/
theorem c6_amended (fs : FS) (rx : Str → Option (Str → Bool))
    (f c p old new regex gp up : Str) (app ld tr sd : Bool) (sL eL : Option Int) :
    (file_write fs f c app ld tr sd).1.success = true
    ∧ ((file_read fs f sL eL).success = false → (file_read fs f sL eL).message ≠ [])
    ∧ (file_exists fs p).success = true
    ∧ (file_delete fs p).1.success = true
    ∧ ((file_list fs p).success = false → (file_list fs p).message ≠ [])
    ∧ ((file_replace fs f old new).1.success = false →
        (file_replace fs f old new).1.message ≠ [])
    ∧ ((file_search rx fs f regex).success = false →
        (file_search rx fs f regex).message ≠ [])
    ∧ (file_find fs p gp).success = true
    ∧ (file_upload fs up p).1.success = true
    ∧ (isFileFS fs (resolvePath p) = false →
        ∃ e, file_download fs p = Except.error e ∧ e ≠ []) := by
  refine ⟨rfl, ?_, rfl, ?_, ?_, ?_, ?_, rfl, rfl, ?_⟩
  · simp only [file_read]
    split
    · intro _
      exact aux_cons_append_ne_nil 'F' _ _
    · intro h
      simp at h
  · simp only [file_delete]
    split
    · rfl
    · split
      · rfl
      · rfl
  · simp only [file_list]
    split
    · intro h
      simp at h
    · split
      · intro _
        exact aux_cons_append_ne_nil 'N' _ _
      · intro _
        exact aux_cons_append_ne_nil 'F' _ _
  · simp only [file_replace]
    split
    · intro _
      exact aux_cons_append_ne_nil 'F' _ _
    · split
      · intro h
        simp at h
      · intro _
        show lit "String not found in file" ≠ []
        decide
  · simp only [file_search]
    split
    · intro _
      exact aux_cons_append_ne_nil 'F' _ _
    · split
      · intro _
        exact aux_cons_append_ne_nil 'r' _ _
      · intro h
        simp at h
  · intro h
    cases hl : fsLookup fs (resolvePath p) with
    | none =>
      exact ⟨lit "FileNotFoundError: " ++ resolvePath p,
             by simp only [file_download, hl], aux_cons_append_ne_nil 'F' _ _⟩
    | some content =>
      unfold isFileFS at h
      rw [hl] at h
      simp at h

/-- C6 witness: the wrapped failure of `file_read` and the escaping
exception of `file_download` at a concrete missing path. -/
theorem c6_witness :
    (file_read ⟨[], []⟩ (lit "/x") none none).message ≠ []
    ∧ ∃ e, file_download ⟨[], []⟩ (lit "/x") = Except.error e ∧ e ≠ [] :=
  ⟨(c6_amended ⟨[], []⟩ (fun _ => none) (lit "/x") [] (lit "/x") [] [] [] [] []
      false false false false none none).2.1 (by decide),
   (c6_amended ⟨[], []⟩ (fun _ => none) (lit "/x") [] (lit "/x") [] [] [] [] []
      false false false false none none).2.2.2.2.2.2.2.2.2 (by decide)⟩

/-- The backoff delays recorded once the loop has reached attempt `n`:
`2^0, 2^1, ..., 2^(n-1)` seconds. -/
def pows (n : Nat) : List Nat := (List.range n).map (2 ^ ·)

theorem aux_pows_step (a : Nat) :
    (if a > 0 then pows (a - 1) ++ [2 ^ (a - 1)] else pows (a - 1)) = pows a := by
  cases a with
  | zero => simp
  | succ n => simp [pows, List.range_succ]

theorem aux_askFrom_shape (f : Nat → AttemptOutcome) :
    ∀ rem a,
      (askFrom f a rem (pows (a - 1)) a).delays
          = pows ((askFrom f a rem (pows (a - 1)) a).calls - 1)
      ∧ a + 1 ≤ (askFrom f a rem (pows (a - 1)) a).calls
      ∧ (askFrom f a rem (pows (a - 1)) a).calls ≤ a + rem + 1 := by
  intro rem
  induction rem with
  | zero =>
    intro a
    cases hf : f a <;>
      simp only [askFrom, hf, aux_pows_step, Nat.add_sub_cancel] <;>
      exact ⟨by trivial, by omega, by omega⟩
  | succ n ih =>
    intro a
    cases hf : f a with
    | success r =>
      simp only [askFrom, hf, aux_pows_step, Nat.add_sub_cancel]
      exact ⟨by trivial, by omega, by omega⟩
    | noChoices =>
      have := ih (a + 1)
      rw [Nat.add_sub_cancel] at this
      simp only [askFrom, hf, aux_pows_step]
      exact ⟨this.1, by omega, by omega⟩
    | failure e =>
      have := ih (a + 1)
      rw [Nat.add_sub_cancel] at this
      simp only [askFrom, hf, aux_pows_step]
      exact ⟨this.1, by omega, by omega⟩

/-- C4: the retry loop of `ask` makes at most 4 service calls; the
backoff delays are exactly 1s, 2s, 4s (a prefix thereof, one per retry
performed); if the first `k` attempts are retryable (transport failure
or empty choices) and attempt `k` succeeds, the loop returns that reply
after `k + 1` calls with the first `k` delays and no further retries;
and if all 4 attempts fail the error is raised to the caller. -/
theorem c4_retry (f : Nat → AttemptOutcome) :
    ((askRetryLoop f).calls ≤ 4
      ∧ (askRetryLoop f).delays = [1, 2, 4].take ((askRetryLoop f).calls - 1))
    ∧ (∀ k r, k ≤ 3 → (∀ j, j < k → (f j).isSuccess = false) → f k = .success r →
        askRetryLoop f = ⟨k + 1, [1, 2, 4].take k, .ok r⟩)
    ∧ ((∀ k, k ≤ 3 → (f k).isSuccess = false) →
        (askRetryLoop f).calls = 4 ∧ ∃ e, (askRetryLoop f).outcome = .error e) := by
  have e0 : askRetryLoop f = askFrom f 0 3 (pows (0 - 1)) 0 := rfl
  refine ⟨?_, ?_, ?_⟩
  · obtain ⟨hd, hlo, hhi⟩ := aux_askFrom_shape f 3 0
    rw [e0]
    refine ⟨by omega, ?_⟩
    rw [hd]
    have hb : (askFrom f 0 3 (pows (0 - 1)) 0).calls - 1 ≤ 3 := by omega
    set n := (askFrom f 0 3 (pows (0 - 1)) 0).calls - 1 with hn
    interval_cases n <;> rfl
  · intro k r hk hns hsucc
    interval_cases k
    · simp only [askRetryLoop, askFrom, hsucc]
      rfl
    · have h0 := hns 0 (by omega)
      cases hf0 : f 0 with
      | success r0 => rw [hf0] at h0; simp [AttemptOutcome.isSuccess] at h0
      | noChoices =>
        simp only [askRetryLoop, askFrom, hf0, hsucc]
        rfl
      | failure e0 =>
        simp only [askRetryLoop, askFrom, hf0, hsucc]
        rfl
    · have h0 := hns 0 (by omega)
      have h1 := hns 1 (by omega)
      cases hf0 : f 0 with
      | success r0 => rw [hf0] at h0; simp [AttemptOutcome.isSuccess] at h0
      | noChoices =>
        cases hf1 : f 1 with
        | success r1 => rw [hf1] at h1; simp [AttemptOutcome.isSuccess] at h1
        | noChoices =>
          simp only [askRetryLoop, askFrom, hf0, hf1, hsucc]
          rfl
        | failure e1 =>
          simp only [askRetryLoop, askFrom, hf0, hf1, hsucc]
          rfl
      | failure e0 =>
        cases hf1 : f 1 with
        | success r1 => rw [hf1] at h1; simp [AttemptOutcome.isSuccess] at h1
        | noChoices =>
          simp only [askRetryLoop, askFrom, hf0, hf1, hsucc]
          rfl
        | failure e1 =>
          simp only [askRetryLoop, askFrom, hf0, hf1, hsucc]
          rfl
    · have h0 := hns 0 (by omega)
      have h1 := hns 1 (by omega)
      have h2 := hns 2 (by omega)
      cases hf0 : f 0 with
      | success r0 => rw [hf0] at h0; simp [AttemptOutcome.isSuccess] at h0
      | noChoices =>
        cases hf1 : f 1 with
        | success r1 => rw [hf1] at h1; simp [AttemptOutcome.isSuccess] at h1
        | noChoices =>
          cases hf2 : f 2 with
          | success r2 => rw [hf2] at h2; simp [AttemptOutcome.isSuccess] at h2
          | noChoices =>
            simp only [askRetryLoop, askFrom, hf0, hf1, hf2, hsucc]
            rfl
          | failure e2 =>
            simp only [askRetryLoop, askFrom, hf0, hf1, hf2, hsucc]
            rfl
        | failure e1 =>
          cases hf2 : f 2 with
          | success r2 => rw [hf2] at h2; simp [AttemptOutcome.isSuccess] at h2
          | noChoices =>
            simp only [askRetryLoop, askFrom, hf0, hf1, hf2, hsucc]
            rfl
          | failure e2 =>
            simp only [askRetryLoop, askFrom, hf0, hf1, hf2, hsucc]
            rfl
      | failure e0 =>
        cases hf1 : f 1 with
        | success r1 => rw [hf1] at h1; simp [AttemptOutcome.isSuccess] at h1
        | noChoices =>
          cases hf2 : f 2 with
          | success r2 => rw [hf2] at h2; simp [AttemptOutcome.isSuccess] at h2
          | noChoices =>
            simp only [askRetryLoop, askFrom, hf0, hf1, hf2, hsucc]
            rfl
          | failure e2 =>
            simp only [askRetryLoop, askFrom, hf0, hf1, hf2, hsucc]
            rfl
        | failure e1 =>
          cases hf2 : f 2 with
          | success r2 => rw [hf2] at h2; simp [AttemptOutcome.isSuccess] at h2
          | noChoices =>
            simp only [askRetryLoop, askFrom, hf0, hf1, hf2, hsucc]
            rfl
          | failure e2 =>
            simp only [askRetryLoop, askFrom, hf0, hf1, hf2, hsucc]
            rfl
  · intro hall
    have h0 := hall 0 (by omega)
    have h1 := hall 1 (by omega)
    have h2 := hall 2 (by omega)
    have h3 := hall 3 (by omega)
    cases hf0 : f 0 with
    | success r0 => rw [hf0] at h0; simp [AttemptOutcome.isSuccess] at h0
    | noChoices =>
      cases hf1 : f 1 with
      | success r1 => rw [hf1] at h1; simp [AttemptOutcome.isSuccess] at h1
      | noChoices =>
        cases hf2 : f 2 with
        | success r2 => rw [hf2] at h2; simp [AttemptOutcome.isSuccess] at h2
        | noChoices =>
          cases hf3 : f 3 with
          | success r3 => rw [hf3] at h3; simp [AttemptOutcome.isSuccess] at h3
          | noChoices =>
            simp only [askRetryLoop, askFrom, hf0, hf1, hf2, hf3]
            exact ⟨by trivial, _, rfl⟩
          | failure e3 =>
            simp only [askRetryLoop, askFrom, hf0, hf1, hf2, hf3]
            exact ⟨by trivial, _, rfl⟩
        | failure e2 =>
          cases hf3 : f 3 with
          | success r3 => rw [hf3] at h3; simp [AttemptOutcome.isSuccess] at h3
          | noChoices =>
            simp only [askRetryLoop, askFrom, hf0, hf1, hf2, hf3]
            exact ⟨by trivial, _, rfl⟩
          | failure e3 =>
            simp only [askRetryLoop, askFrom, hf0, hf1, hf2, hf3]
            exact ⟨by trivial, _, rfl⟩
      | failure e1 =>
        cases hf2 : f 2 with
        | success r2 => rw [hf2] at h2; simp [AttemptOutcome.isSuccess] at h2
        | noChoices =>
          cases hf3 : f 3 with
          | success r3 => rw [hf3] at h3; simp [AttemptOutcome.isSuccess] at h3
          | noChoices =>
            simp only [askRetryLoop, askFrom, hf0, hf1, hf2, hf3]
            exact ⟨by trivial, _, rfl⟩
          | failure e3 =>
            simp only [askRetryLoop, askFrom, hf0, hf1, hf2, hf3]
            exact ⟨by trivial, _, rfl⟩
        | failure e2 =>
          cases hf3 : f 3 with
          | success r3 => rw [hf3] at h3; simp [AttemptOutcome.isSuccess] at h3
          | noChoices =>
            simp only [askRetryLoop, askFrom, hf0, hf1, hf2, hf3]
            exact ⟨by trivial, _, rfl⟩
          | failure e3 =>
            simp only [askRetryLoop, askFrom, hf0, hf1, hf2, hf3]
            exact ⟨by trivial, _, rfl⟩
    | failure e0 =>
      cases hf1 : f 1 with
      | success r1 => rw [hf1] at h1; simp [AttemptOutcome.isSuccess] at h1
      | noChoices =>
        cases hf2 : f 2 with
        | success r2 => rw [hf2] at h2; simp [AttemptOutcome.isSuccess] at h2
        | noChoices =>
          cases hf3 : f 3 with
          | success r3 => rw [hf3] at h3; simp [AttemptOutcome.isSuccess] at h3
          | noChoices =>
            simp only [askRetryLoop, askFrom, hf0, hf1, hf2, hf3]
            exact ⟨by trivial, _, rfl⟩
          | failure e3 =>
            simp only [askRetryLoop, askFrom, hf0, hf1, hf2, hf3]
            exact ⟨by trivial, _, rfl⟩
        | failure e2 =>
          cases hf3 : f 3 with
          | success r3 => rw [hf3] at h3; simp [AttemptOutcome.isSuccess] at h3
          | noChoices =>
            simp only [askRetryLoop, askFrom, hf0, hf1, hf2, hf3]
            exact ⟨by trivial, _, rfl⟩
          | failure e3 =>
            simp only [askRetryLoop, askFrom, hf0, hf1, hf2, hf3]
            exact ⟨by trivial, _, rfl⟩
      | failure e1 =>
        cases hf2 : f 2 with
        | success r2 => rw [hf2] at h2; simp [AttemptOutcome.isSuccess] at h2
        | noChoices =>
          cases hf3 : f 3 with
          | success r3 => rw [hf3] at h3; simp [AttemptOutcome.isSuccess] at h3
          | noChoices =>
            simp only [askRetryLoop, askFrom, hf0, hf1, hf2, hf3]
            exact ⟨by trivial, _, rfl⟩
          | failure e3 =>
            simp only [askRetryLoop, askFrom, hf0, hf1, hf2, hf3]
            exact ⟨by trivial, _, rfl⟩
        | failure e2 =>
          cases hf3 : f 3 with
          | success r3 => rw [hf3] at h3; simp [AttemptOutcome.isSuccess] at h3
          | noChoices =>
            simp only [askRetryLoop, askFrom, hf0, hf1, hf2, hf3]
            exact ⟨by trivial, _, rfl⟩
          | failure e3 =>
            simp only [askRetryLoop, askFrom, hf0, hf1, hf2, hf3]
            exact ⟨by trivial, _, rfl⟩

/-- C4 witness: three consecutive empty-choice responses followed by a
valid reply succeed after exactly the backoff delays 1s, 2s, 4s; four
consecutive transport failures raise the last error to the caller. -/
theorem c4_witness :
    askRetryLoop (fun k => if k < 3 then .noChoices else .success (lit "done"))
      = ⟨4, [1, 2, 4], .ok (lit "done")⟩
    ∧ (askRetryLoop (fun _ => .failure (lit "boom"))).calls = 4
    ∧ ∃ e, (askRetryLoop (fun _ => .failure (lit "boom"))).outcome = .error e :=
  ⟨((c4_retry (fun k => if k < 3 then .noChoices else .success (lit "done"))).2.1 3 (lit "done")
      (by omega) (fun j hj => by interval_cases j <;> rfl) rfl).trans rfl,
   ((c4_retry (fun _ => .failure (lit "boom"))).2.2 (fun k _ => rfl)).1,
   ((c4_retry (fun _ => .failure (lit "boom"))).2.2 (fun k _ => rfl)).2⟩

theorem aux_stepEvents_stop (ctx : EngineCtx) (st : StepState) (e : Ev) :
    (stepEvents ctx st e).2.2 = isStopEv e := by
  cases e with
  | stepEv s stp => rfl
  | message t a => rfl
  | errorEv er => rfl
  | waitEv => rfl
  | doneEv => rfl
  | toolEv fn stat args =>
    cases stat with
    | calling =>
      simp only [stepEvents, isStopEv]
      split <;> rfl
    | called =>
      simp only [stepEvents, isStopEv]
      split
      · next hb => exact hb.symm
      · next hb =>
        simp only [Bool.not_eq_true] at hb
        exact hb.symm

theorem aux_stepEvents_no_wait (ctx : EngineCtx) (st : StepState) (e : Ev)
    (hs : isStopEv e = false) (hw : isWaitEv e = false) :
    (stepEvents ctx st e).2.1.all (fun x => !isWaitEv x) = true := by
  cases e with
  | stepEv s stp => rfl
  | errorEv er => rfl
  | doneEv => rfl
  | waitEv => simp [isWaitEv] at hw
  | message t a =>
    simp only [stepEvents]
    split <;> split <;> rfl
  | toolEv fn stat args =>
    cases stat with
    | calling =>
      simp only [stepEvents]
      split <;> rfl
    | called =>
      simp only [isStopEv] at hs
      simp only [stepEvents, hs]
      rfl

theorem aux_runEvents_completed (ctx : EngineCtx) (evs : List Ev) :
    ∀ st : StepState, evs.all (fun e => !isStopEv e) = true →
      (runEvents ctx st evs).1.status = .completed := by
  induction evs with
  | nil => intro st _; rfl
  | cons e rest ih =>
    intro st h
    simp only [List.all_cons, Bool.and_eq_true, Bool.not_eq_true'] at h
    obtain ⟨he, hrest⟩ := h
    simp only [runEvents, aux_stepEvents_stop, he, Bool.false_eq_true, if_false]
    exact ih _ (by simpa [List.all_eq_true, Bool.not_eq_true'] using hrest)

/-- C1 counterexample: a stream consisting of a single ErrorEvent marks
the step FAILED mid-stream (the second emitted StepEvent carries the
FAILED snapshot), yet `execute_step`'s trailing assignment overwrites the
status unconditionally, so the finished step is COMPLETED, not FAILED —
refuting both the monotonicity claim and the "only if not already
terminal" guard. -/
theorem c1_counterexample :
    executeStep ⟨fun _ => .error [], fun _ => none, fun _ => []⟩
        ⟨[], .pending, false, [], [], none⟩ [.errorEv (lit "boom")]
      = (⟨[], .completed, false, [], [], some (lit "boom")⟩,
         [.stepEv .started ⟨[], .running, false, [], [], none⟩,
          .stepEv .failed ⟨[], .failed, false, [], [], some (lit "boom")⟩,
          .errorEv (lit "boom")]) := by
  rfl

/-- C1 amended: within one `execute_step` invocation the status is set to
RUNNING at the start (first emitted event), ErrorEvents set FAILED and a
terminal message sets COMPLETED while the stream runs, and after the
stream is exhausted the status is unconditionally assigned COMPLETED —
so a step whose status became FAILED during the stream still finishes
COMPLETED; only the early ask-user return leaves a FAILED status in
place. -/
theorem c1_amended (ctx : EngineCtx) (step : StepState) (evs : List Ev)
    (h : evs.all (fun e => !isStopEv e) = true) :
    (executeStep ctx step evs).1.status = .completed
    ∧ (executeStep ctx step evs).2.head?
        = some (.stepEv .started { step with status := .running }) :=
  ⟨aux_runEvents_completed ctx evs { step with status := .running } h, rfl⟩

/-- C1 witness: a stream with one ordinary tool event and a DoneEvent
finishes COMPLETED, starting from a RUNNING snapshot. -/
theorem c1_witness :
    (executeStep ⟨fun _ => .error [], fun _ => none, fun _ => []⟩
        ⟨[], .pending, false, [], [], none⟩
        [.toolEv (lit "shell_exec") .calling [], .doneEv]).1.status = .completed
    ∧ (executeStep ⟨fun _ => .error [], fun _ => none, fun _ => []⟩
        ⟨[], .pending, false, [], [], none⟩
        [.toolEv (lit "shell_exec") .calling [], .doneEv]).2.head?
        = some (.stepEv .started ⟨[], .running, false, [], [], none⟩) :=
  c1_amended ⟨fun _ => .error [], fun _ => none, fun _ => []⟩
    ⟨[], .pending, false, [], [], none⟩
    [.toolEv (lit "shell_exec") .calling [], .doneEv] (by decide)

theorem aux_runEvents_post_invariant (ctx : EngineCtx) (pre : List Ev) :
    ∀ (st : StepState) (args : List (Str × Str)) (post : List Ev),
      pre.all (fun e => !isStopEv e) = true →
      runEvents ctx st (pre ++ .toolEv askUserName .called args :: post)
        = runEvents ctx st (pre ++ [.toolEv askUserName .called args]) := by
  induction pre with
  | nil =>
    intro st args post _
    have hstop : isStopEv (.toolEv askUserName .called args) = true := by
      simp [isStopEv]
    simp only [List.nil_append, runEvents, aux_stepEvents_stop, hstop, if_true]
  | cons e rest ih =>
    intro st args post h
    simp only [List.all_cons, Bool.and_eq_true, Bool.not_eq_true'] at h
    obtain ⟨he, hrest⟩ := h
    simp only [List.cons_append, runEvents, aux_stepEvents_stop, he, Bool.false_eq_true,
      if_false, List.append_eq]
    rw [ih _ args post (by simpa [List.all_eq_true, Bool.not_eq_true'] using hrest)]

theorem aux_runEvents_wait_end (ctx : EngineCtx) (pre : List Ev) :
    ∀ (st : StepState) (args : List (Str × Str)),
      pre.all (fun e => !isStopEv e && !isWaitEv e) = true →
      ∃ outPre, (runEvents ctx st (pre ++ [.toolEv askUserName .called args])).2
          = outPre ++ [.waitEv]
        ∧ outPre.all (fun x => !isWaitEv x) = true := by
  induction pre with
  | nil =>
    intro st args _
    have hstop : isStopEv (.toolEv askUserName .called args) = true := by
      simp [isStopEv]
    refine ⟨[], ?_, rfl⟩
    simp only [List.nil_append, runEvents, aux_stepEvents_stop, hstop, if_true]
    rfl
  | cons e rest ih =>
    intro st args h
    simp only [List.all_cons, Bool.and_eq_true, Bool.not_eq_true'] at h
    obtain ⟨⟨he1, he2⟩, hrest⟩ := h
    obtain ⟨op, hop, hall⟩ := ih (stepEvents ctx st e).1 args
      (by simpa [List.all_eq_true, Bool.not_eq_true'] using hrest)
    refine ⟨(stepEvents ctx st e).2.1 ++ op, ?_, ?_⟩
    · simp only [List.cons_append, runEvents, aux_stepEvents_stop, he1, Bool.false_eq_true,
        if_false, List.append_eq]
      rw [hop, List.append_assoc]
    · rw [List.all_append, hall, aux_stepEvents_no_wait ctx st e he1 he2]
      rfl

/-- C5: when the inner stream reaches a CALLED ToolEvent for the
designated ask-user tool, `execute_step` emits a single WaitEvent and
terminates immediately: the produced events are independent of anything
after that inner event, the output ends at its only WaitEvent, and on
the CALLING sub-state a MessageEvent carrying the call's `text` argument
is emitted. -/
theorem c5_ask_user (ctx : EngineCtx) (st : StepState) (pre post : List Ev)
    (args : List (Str × Str))
    (h : pre.all (fun e => !isStopEv e && !isWaitEv e) = true) :
    executeStep ctx st (pre ++ .toolEv askUserName .called args :: post)
      = executeStep ctx st (pre ++ [.toolEv askUserName .called args])
    ∧ (∃ outPre, (executeStep ctx st (pre ++ .toolEv askUserName .called args :: post)).2
          = outPre ++ [.waitEv]
        ∧ outPre.all (fun x => !isWaitEv x) = true)
    ∧ (∀ (st' : StepState) (args' : List (Str × Str)),
        stepEvents ctx st' (.toolEv askUserName .calling args')
          = (st', [.message (argsGetText args') []], false)) := by
  have hpre : pre.all (fun e => !isStopEv e) = true := by
    simp only [List.all_eq_true, Bool.and_eq_true] at h ⊢
    exact fun e he => (h e he).1
  refine ⟨?_, ?_, ?_⟩
  · simp only [executeStep]
    rw [aux_runEvents_post_invariant ctx pre _ args post hpre]
  · simp only [executeStep]
    obtain ⟨op, hop, hall⟩ :=
      aux_runEvents_wait_end ctx pre { st with status := .running } args h
    refine ⟨.stepEv .started { st with status := .running } :: op, ?_, ?_⟩
    · rw [aux_runEvents_post_invariant ctx pre _ args post hpre, hop]
      rfl
    · rw [List.all_cons, hall]
      rfl
  · intro st' args'
    simp [stepEvents]

/-- C5 witness: a CALLING then CALLED ask-user pair followed by a
DoneEvent: the emitted sequence is exactly the STARTED StepEvent, the
prompt MessageEvent, and one final WaitEvent; the DoneEvent after the
suspension point is never processed. -/
theorem c5_witness :
    executeStep ⟨fun _ => .error [], fun _ => none, fun _ => []⟩
        ⟨[], .pending, false, [], [], none⟩
        ([.toolEv askUserName .calling [(lit "text", lit "Q?")]]
          ++ .toolEv askUserName .called [] :: [.doneEv])
      = executeStep ⟨fun _ => .error [], fun _ => none, fun _ => []⟩
          ⟨[], .pending, false, [], [], none⟩
          ([.toolEv askUserName .calling [(lit "text", lit "Q?")]]
            ++ [.toolEv askUserName .called []])
    ∧ (executeStep ⟨fun _ => .error [], fun _ => none, fun _ => []⟩
        ⟨[], .pending, false, [], [], none⟩
        ([.toolEv askUserName .calling [(lit "text", lit "Q?")]]
          ++ .toolEv askUserName .called [] :: [.doneEv])).2
      = [.stepEv .started ⟨[], .running, false, [], [], none⟩,
         .message (lit "Q?") [], .waitEv] :=
  ⟨(c5_ask_user ⟨fun _ => .error [], fun _ => none, fun _ => []⟩
      ⟨[], .pending, false, [], [], none⟩
      [.toolEv askUserName .calling [(lit "text", lit "Q?")]] [.doneEv] []
      (by decide)).1,
   by rfl⟩

theorem aux_autoFileOps_obj (sb : SandboxIface) (entries : List JValue) :
    ∀ lp, entries.all isJObj = true →
      autoFileOps sb entries lp
        = .ok (entries.filterMap (specFileOpOutcome sb), entries.filterMap specFileOpCall) := by
  induction entries with
  | nil => intro lp _; rfl
  | cons op rest ih =>
    intro lp h
    simp only [List.all_cons, Bool.and_eq_true] at h
    obtain ⟨hop, hrest⟩ := h
    cases op with
    | jnull => simp [isJObj] at hop
    | jbool b => simp [isJObj] at hop
    | jnum l => simp [isJObj] at hop
    | jstr s => simp [isJObj] at hop
    | jarr l => simp [isJObj] at hop
    | jobj m =>
      by_cases hskip : fileOpSkip (.jobj m) = true
      · simp only [autoFileOps, List.filterMap_cons, specFileOpOutcome, specFileOpCall,
          hskip, if_true]
        exact ih _ hrest
      · have hskip' : fileOpSkip (.jobj m) = false := by
          simpa using hskip
        simp only [autoFileOps, List.filterMap_cons, specFileOpOutcome, specFileOpCall,
          hskip', Bool.false_eq_true, if_false]
        rw [ih _ hrest]

/-- C8: with a sandbox attached, the `file_operations` entries of a
parsed terminal answer are processed in list order: an entry with an
empty (falsy) path or content is silently skipped, producing no outcome
string; every other entry issues exactly one write with `append =
(action == "append")`, no leading newline, a forced trailing newline and
`sudo = false`, recording exactly one outcome string; a per-entry write
failure is caught into its outcome string without aborting the remaining
entries.  With no sandbox attached the call returns the empty report. -/
theorem c8_auto_file_ops (sb : SandboxIface) (ids : Nat → Str) (entries : List JValue)
    (parsed : JValue) (hobj : entries.all isJObj = true)
    (hget : pyDictGet parsed (lit "file_operations") (.jarr []) = .jarr entries)
    (hshell : pyDictGet parsed (lit "shell_commands") (.jarr []) = .jarr []) :
    autoExecuteOperations (some sb) ids parsed
      = .ok (entries.filterMap (specFileOpOutcome sb), entries.filterMap specFileOpCall)
    ∧ ∀ p2, autoExecuteOperations none ids p2 = .ok ([], []) := by
  constructor
  · unfold autoExecuteOperations
    rw [hget, hshell]
    cases entries with
    | nil => rfl
    | cons e rest =>
      have hfo := aux_autoFileOps_obj sb (e :: rest) none hobj
      simp only [pyTruthy, pyIterate, List.isEmpty_cons, Bool.not_false, if_true]
      rw [hfo]
      rfl
  · intro p2
    rfl

/-- C8 witness: an entry with missing (empty) content followed by a valid
append entry against an always-succeeding sandbox: exactly one outcome is
recorded, for the valid entry, and exactly one write is issued with the
append flag set and the forced trailing newline. -/
theorem c8_witness :
    autoExecuteOperations
        (some ⟨fun _ _ _ _ _ _ => .ok ⟨true, [], .nodata⟩, fun _ _ _ => .ok ⟨true, [], .nodata⟩⟩)
        (fun _ => [])
        (.jobj [(lit "file_operations",
          .jarr [.jobj [(lit "path", .jstr (lit "a.txt"))],
                 .jobj [(lit "action", .jstr (lit "append")), (lit "path", .jstr (lit "b.txt")),
                        (lit "content", .jstr (lit "x"))]])])
      = .ok ([lit "File append to b.txt: success"],
             [⟨.jstr (lit "b.txt"), .jstr (lit "x"), true, false, true, false⟩])
    ∧ autoExecuteOperations none (fun _ => [])
        (.jobj [(lit "file_operations",
          .jarr [.jobj [(lit "path", .jstr (lit "a.txt"))],
                 .jobj [(lit "action", .jstr (lit "append")), (lit "path", .jstr (lit "b.txt")),
                        (lit "content", .jstr (lit "x"))]])])
      = .ok ([], []) :=
  ⟨((c8_auto_file_ops
      ⟨fun _ _ _ _ _ _ => .ok ⟨true, [], .nodata⟩, fun _ _ _ => .ok ⟨true, [], .nodata⟩⟩
      (fun _ => [])
      [.jobj [(lit "path", .jstr (lit "a.txt"))],
       .jobj [(lit "action", .jstr (lit "append")), (lit "path", .jstr (lit "b.txt")),
              (lit "content", .jstr (lit "x"))]]
      (.jobj [(lit "file_operations",
        .jarr [.jobj [(lit "path", .jstr (lit "a.txt"))],
               .jobj [(lit "action", .jstr (lit "append")), (lit "path", .jstr (lit "b.txt")),
                      (lit "content", .jstr (lit "x"))]])])
      (by decide) rfl rfl).1).trans (by rfl),
   (c8_auto_file_ops
      ⟨fun _ _ _ _ _ _ => .ok ⟨true, [], .nodata⟩, fun _ _ _ => .ok ⟨true, [], .nodata⟩⟩
      (fun _ => [])
      [.jobj [(lit "path", .jstr (lit "a.txt"))],
       .jobj [(lit "action", .jstr (lit "append")), (lit "path", .jstr (lit "b.txt")),
              (lit "content", .jstr (lit "x"))]]
      (.jobj [(lit "file_operations",
        .jarr [.jobj [(lit "path", .jstr (lit "a.txt"))],
               .jobj [(lit "action", .jstr (lit "append")), (lit "path", .jstr (lit "b.txt")),
                      (lit "content", .jstr (lit "x"))]])])
      (by decide) rfl rfl).2 _⟩

theorem aux_isPrefixOf_false_btick (needle : Str) (hhead : needle.head? = some btick)
    (a : Char) (t : Str) (ha : (! (a == btick)) = true) :
    needle.isPrefixOf (a :: t) = false := by
  cases needle with
  | nil => simp at hhead
  | cons n nt =>
    simp only [List.head?_cons, Option.some.injEq] at hhead
    subst hhead
    have hne : (btick == a) = false := by
      simp only [Bool.not_eq_true'] at ha
      simp only [beq_eq_false_iff_ne] at ha ⊢
      exact fun hh => ha hh.symm
    simp [List.isPrefixOf, hne]

theorem aux_findSubAux_btick (needle : Str) (hhead : needle.head? = some btick) :
    ∀ (hay : Str) (i : Nat), hay.all (fun c => ! (c == btick)) = true →
      findSubAux needle hay i = none := by
  intro hay
  induction hay with
  | nil =>
    intro i _
    cases needle with
    | nil => simp at hhead
    | cons n nt => rfl
  | cons a t ih =>
    intro i h
    simp only [List.all_cons, Bool.and_eq_true] at h
    obtain ⟨ha, ht⟩ := h
    rw [findSubAux.eq_def, if_neg (by rw [aux_isPrefixOf_false_btick needle hhead a t ha]; simp)]
    exact ih (i + 1) ht

theorem aux_noBtick_strat1 (text : Str) (h : text.all (fun c => ! (c == btick)) = true) :
    strat1 text = none := by
  unfold strat1 findSub
  rw [aux_findSubAux_btick fenceTC rfl text 0 h]

theorem aux_noBtick_strat2 (text : Str) :
    text.all (fun c => ! (c == btick)) = true → strat2Aux text = none := by
  induction text with
  | nil => intro _; rfl
  | cons a t ih =>
    intro h
    simp only [List.all_cons, Bool.and_eq_true] at h
    obtain ⟨ha, ht⟩ := h
    rw [strat2Aux.eq_def]
    simp only [aux_isPrefixOf_false_btick fenceJson rfl a t ha, Bool.false_eq_true, if_false]
    exact ih (by simpa [List.all_eq_true] using ht)

theorem aux_noBtick_strat3 (text : Str) :
    text.all (fun c => ! (c == btick)) = true → strat3Aux text = none := by
  induction text with
  | nil => intro _; rfl
  | cons a t ih =>
    intro h
    simp only [List.all_cons, Bool.and_eq_true] at h
    obtain ⟨ha, ht⟩ := h
    rw [strat3Aux.eq_def]
    simp only [aux_isPrefixOf_false_btick fence3 rfl a t ha, Bool.false_eq_true, if_false]
    exact ih (by simpa [List.all_eq_true] using ht)

theorem aux_pyAnyContains_str (kws : List Str) (s : Str) :
    pyAnyContains kws (.jstr s) = .ok true → ∃ kw ∈ kws, containsSub s kw = true := by
  induction kws with
  | nil => intro h; simp [pyAnyContains] at h
  | cons kw t ih =>
    intro h
    cases hcs : containsSub s kw with
    | true => exact ⟨kw, List.mem_cons_self kw t, hcs⟩
    | false =>
      simp only [pyAnyContains, pyInStr, hcs] at h
      obtain ⟨kw', hmem, hc⟩ := ih h
      exact ⟨kw', List.mem_cons_of_mem kw hmem, hc⟩

/-- C2 counterexample: unfenced `{"name": "xshell_y", "arguments": {}}`
decodes to a tool call via the last-resort strategy even though
`xshell_y` does not BEGIN with any allow-listed prefix — the source
tests `keyword in func_name` (substring containment), not a prefix, so
the claim that such a name makes `decode` return none is false at this
input. -/
theorem c2_counterexample :
    parseToolCallFromText (lit "\x7b\"name\": \"xshell_y\", \"arguments\": \x7b\x7d\x7d")
      = .ok (some (.jobj [(lit "name", .jstr (lit "xshell_y")),
                          (lit "arguments", .jobj [])]))
    ∧ allowKeywords.all (fun kw => ! kw.isPrefixOf (lit "xshell_y")) = true :=
  ⟨by rfl, by decide⟩

/-- C2 amended: on a text where no fenced strategy can match (no backtick
occurs), `decode` is exactly the last-resort strategy: the substring
between the first opening brace and the last closing brace of the whole
text, accepted only if it parses as JSON with `name` and `arguments`
keys AND the name passes the allow-keyword test — which is substring
CONTAINMENT of one of `shell_`, `file_`, `browser_`, `search_`,
`message_` in the name, not a prefix test. -/
theorem c2_amended (text : Str) (hb : text.all (fun c => ! (c == btick)) = true) :
    parseToolCallFromText text = lastResortParse text
    ∧ ∀ v, lastResortParse text = .ok (some v) →
        (∃ bs be, findCharIdx text '\x7b' = some bs ∧ rfindCharIdx text '\x7d' = some be
          ∧ bs < be ∧ jsonParse (strSlice text bs (be + 1)) = some v
          ∧ pyInStr (lit "name") v = .ok true ∧ pyInStr (lit "arguments") v = .ok true)
        ∧ pyAnyContains allowKeywords (pyDictGet v (lit "name") .jnull) = .ok true
        ∧ (∀ s, pyDictGet v (lit "name") .jnull = .jstr s →
            ∃ kw ∈ allowKeywords, containsSub s kw = true) := by
  constructor
  · unfold parseToolCallFromText strat2 strat3
    rw [aux_noBtick_strat1 text hb, aux_noBtick_strat2 text hb, aux_noBtick_strat3 text hb]
    rfl
  · intro v hv
    unfold lastResortParse at hv
    cases hfb : findCharIdx text '\x7b' with
    | none => simp only [hfb] at hv; simp at hv
    | some bs =>
      cases hrb : rfindCharIdx text '\x7d' with
      | none => simp only [hfb, hrb] at hv; simp at hv
      | some be =>
        simp only [hfb, hrb] at hv
        by_cases hlt : bs < be
        · rw [if_pos hlt] at hv
          cases hjp : jsonParse (strSlice text bs (be + 1)) with
          | none => simp only [hjp] at hv; simp at hv
          | some w =>
            simp only [hjp] at hv
            cases hn : pyInStr (lit "name") w with
            | error e => simp only [hn] at hv; simp at hv
            | ok bn =>
              simp only [hn] at hv
              cases bn with
              | false => simp at hv
              | true =>
                cases harg : pyInStr (lit "arguments") w with
                | error e => simp only [harg] at hv; simp at hv
                | ok ba =>
                  simp only [harg] at hv
                  cases ba with
                  | false => simp at hv
                  | true =>
                    cases hac : pyAnyContains allowKeywords (pyDictGet w (lit "name") .jnull) with
                    | error e => simp only [hac] at hv; simp at hv
                    | ok bc =>
                      simp only [hac] at hv
                      cases bc with
                      | false => simp at hv
                      | true =>
                        simp only [Except.ok.injEq, Option.some.injEq] at hv
                        subst hv
                        exact ⟨⟨bs, be, rfl, rfl, hlt, hjp, hn, harg⟩, hac,
                          fun s hs => aux_pyAnyContains_str allowKeywords s (hs ▸ hac)⟩
        · rw [if_neg hlt] at hv
          simp at hv

/-- C2 witness: the spec's own positive example — unfenced trailing text
ending in a `file_write` call — decodes via the last resort, and the
decoded object is exactly the parsed brace substring. -/
theorem c2_witness :
    parseToolCallFromText
        (lit "... done. \x7b\"name\": \"file_write\", \"arguments\": \x7b\"path\": \"/a\", \"content\": \"x\"\x7d\x7d")
      = lastResortParse
        (lit "... done. \x7b\"name\": \"file_write\", \"arguments\": \x7b\"path\": \"/a\", \"content\": \"x\"\x7d\x7d")
    ∧ parseToolCallFromText
        (lit "... done. \x7b\"name\": \"file_write\", \"arguments\": \x7b\"path\": \"/a\", \"content\": \"x\"\x7d\x7d")
      = .ok (some (.jobj [(lit "name", .jstr (lit "file_write")),
          (lit "arguments", .jobj [(lit "path", .jstr (lit "/a")),
                                   (lit "content", .jstr (lit "x"))])])) :=
  ⟨(c2_amended
      (lit "... done. \x7b\"name\": \"file_write\", \"arguments\": \x7b\"path\": \"/a\", \"content\": \"x\"\x7d\x7d")
      (by decide)).1,
   by rfl⟩

/-- C3 counterexample: a reply whose tool call decodes via the
last-resort strategy (no fencing) keeps the matched block verbatim in
the returned content — the strip step removes only `tool_call`-tagged
fences, so nothing is stripped and the content is NOT emptied, refuting
the claim for decode successes of the non-fenced strategies. -/
theorem c3_counterexample :
    askPostProcess (some (lit "done. \x7b\"name\": \"shell_exec\", \"arguments\": \x7b\x7d\x7d"))
      = .ok ⟨some (lit "done. \x7b\"name\": \"shell_exec\", \"arguments\": \x7b\x7d\x7d"),
             some ⟨.jstr (lit "shell_exec"), .jobj []⟩⟩ := by
  rfl

/-- C3 amended: on every decode success the returned content is the
input with all `tool_call`-tagged fenced blocks removed and surrounding
whitespace stripped (`None` when nothing remains), with the synthesized
call attached; when the text contains no `tool_call` fence — in
particular on last-resort matches — the matched block is NOT stripped
and the content is returned intact (up to whitespace stripping). -/
theorem c3_amended (text : Str) (tc : ToolCallModel)
    (hconv : convertTextToToolCalls text = .ok (some tc)) (hne : text.isEmpty = false) :
    askPostProcess (some text)
      = .ok ⟨if (pyStrip (stripToolCallFences text)).isEmpty then none
             else some (pyStrip (stripToolCallFences text)), some tc⟩
    ∧ (findSub text fenceTC = none → stripToolCallFences text = text) := by
  constructor
  · simp only [askPostProcess, hne, Bool.false_eq_true, if_false, hconv]
  · intro hnot
    unfold stripToolCallFences
    rw [stripTCAux.eq_def]
    simp only [hnot]

/-- C3 witness: a reply that is exactly one `tool_call`-fenced block is
stripped to nothing — the content becomes `None` and the synthesized
call is attached. -/
theorem c3_witness :
    askPostProcess
        (some (lit "```tool_call\n\x7b\"name\": \"file_write\", \"arguments\": \x7b\x7d\x7d\n```"))
      = .ok ⟨none, some ⟨.jstr (lit "file_write"), .jobj []⟩⟩ :=
  ((c3_amended
      (lit "```tool_call\n\x7b\"name\": \"file_write\", \"arguments\": \x7b\x7d\x7d\n```")
      ⟨.jstr (lit "file_write"), .jobj []⟩ (by rfl) rfl).1).trans (by rfl)
